import Mathlib

/-!
Verification development for the FLV demultiplexer core (FlvDemuxer).

The demuxer is shallowly embedded: byte buffers are lists of natural numbers
(each entry a byte value below 256, as produced by a Uint8Array), the mutable
demuxer object becomes an explicit state record threaded through the parsing
functions, and the codec collaborators (AAC / AVC / HEVC / NALu / AMF) are a
record of pure functions the demuxer is parameterised over, exactly as they
are external collaborators of the core.  JavaScript out-of-range reads give
undefined, which the arithmetic contexts coerce to 0; the equality tests of
probe and of the AAC packet-type dispatch distinguish a missing byte from a
zero byte, so those reads are modelled with Option.
-/

set_option maxHeartbeats 1000000

namespace Flv

/-- Byte access into a buffer.  A JavaScript Uint8Array read out of range
gives undefined, which every arithmetic use below coerces to 0. -/
def byte (l : List Nat) (i : Nat) : Nat := l.getD i 0

/-- Modelled from the spec: readBig32 from the byte-utility collaborator
(big-endian 32-bit read; the fourth byte is OR-ed with 0 so that a missing
byte reads as 0, and the shifts coerce a missing byte to 0 likewise). -/
def readBig32 (l : List Nat) (i : Nat) : Nat :=
  byte l i * 16777216 + byte l (i + 1) * 65536 + byte l (i + 2) * 256 + byte l (i + 3)

/-- JavaScript ToInt32: reduce modulo 2^32 and interpret as a signed
two's-complement 32-bit value. -/
def toInt32 (n : Nat) : Int :=
  if n % 4294967296 < 2147483648 then ((n % 4294967296 : Nat) : Int)
  else ((n % 4294967296 : Nat) : Int) - 4294967296

/-- Composition offset decoding from _parseVideo:
(((data[2] and lt.16) or (data[3] shl 8) or data[4]) shl 8) shr 8 in JS,
i.e. shift the 24-bit big-endian field left by 8 into the sign bit and
arithmetically shift back (floor division by 256 on the int32 value). -/
def ctsOf (b2 b3 b4 : Nat) : Int :=
  Int.fdiv (toInt32 ((b2 * 65536 + b3 * 256 + b4) * 256)) 256

/-- Timestamp assembly from the tag loop of demux:
(data[c+7] shl 24 shr-unsigned 0) + (data[c+4] shl 16) + (data[c+5] shl 8) + data[c+6]. -/
def tsOf (b4 b5 b6 b7 : Nat) : Nat :=
  b7 * 16777216 % 4294967296 + b4 * 65536 + b5 * 256 + b6

/-- dataSize field of a tag header, read relative to the tag start:
(data[c+1] shl 16) or (data[c+2] shl 8) or data[c+3]. -/
def dsOf (rest : List Nat) : Nat :=
  byte rest 1 * 65536 + byte rest 2 * 256 + byte rest 3

/-- Warnings emitted through the logger while parsing. -/
inductive LogMsg where
  | invalidTagType (t : Nat)
  | invalidPrevTagSize (got expected : Nat)
  | unsupportedSoundFormat (f : Nat)
  | cannotParseAudioSpecificConfig
  | unknownAacPacketType (t : Option Nat)
  | unsupportedCodecId (c : Nat)
  | cannotParseDcr (hevc : Bool)
  | cannotParseNalus
  | unknownAvcPacketType (t : Nat)
deriving DecidableEq

inductive AudioCodecType where
  | unknown
  | aac
  | g711pcma
  | g711pcmu
deriving DecidableEq

inductive VideoCodecType where
  | unknown
  | avc
  | hevc
deriving DecidableEq

/-- Modelled from the spec: the codec identifier string attached to the
audio track for G.711 flavours (codec = codecType); concrete byte values
are immaterial, distinctness is all that is used. -/
def AudioCodecType.str : AudioCodecType → List Nat
  | .unknown => []
  | .aac => [97, 97, 99]
  | .g711pcma => [103, 55, 49, 49, 97]
  | .g711pcmu => [103, 55, 49, 49, 117]

structure AudioSample where
  pts : Option Nat
  data : List Nat
deriving DecidableEq

structure VideoSample where
  pts : Int
  dts : Nat
  units : List (List Nat)
  keyframe : Bool
  gopId : Nat
deriving DecidableEq

structure SeiSample where
  sei : List Nat
  pts : Int
deriving DecidableEq

structure FlvScriptSample where
  value : List Nat
  pts : Nat
deriving DecidableEq

/-- Modelled from the spec: the AudioTrack record of the model collaborator. -/
structure AudioTrack where
  present : Bool
  timescale : Nat
  formatTimescale : Nat
  samples : List AudioSample
  warnings : List LogMsg
  codecType : AudioCodecType
  codec : List Nat
  sampleRate : Nat
  sampleSize : Nat
  channelCount : Nat
  config : List Nat
  objectType : Nat
  sampleRateIndex : Nat
deriving DecidableEq

def initAudioTrack : AudioTrack :=
  { present := false, timescale := 0, formatTimescale := 0, samples := [], warnings := [],
    codecType := .unknown, codec := [], sampleRate := 0, sampleSize := 0, channelCount := 0,
    config := [], objectType := 0, sampleRateIndex := 0 }

/-- Modelled from the spec: AudioTrack.reset clears the sample list, the
warnings, the codec fields and the parsed configuration; the presence flag
and the timescales are not listed among the reset fields and persist. -/
def AudioTrack.reset (t : AudioTrack) : AudioTrack :=
  { t with samples := [], warnings := [], codecType := .unknown, codec := [],
           sampleRate := 0, sampleSize := 0, channelCount := 0, config := [],
           objectType := 0, sampleRateIndex := 0 }

/-- Modelled from the spec: a track exists when the FLV header marked it
present. -/
def AudioTrack.exist (t : AudioTrack) : Bool := t.present

def AudioTrack.hasSample (t : AudioTrack) : Bool := !t.samples.isEmpty

/-- Modelled from the spec: the VideoTrack record of the model collaborator.
sar models the sarRatio pair. -/
structure VideoTrack where
  present : Bool
  timescale : Nat
  formatTimescale : Nat
  samples : List VideoSample
  warnings : List LogMsg
  codecType : VideoCodecType
  codec : List Nat
  width : Nat
  height : Nat
  sar : List Nat
  fpsNum : Nat
  fpsDen : Nat
  sps : List (List Nat)
  pps : List (List Nat)
  vps : List (List Nat)
  nalUnitSize : Nat
  hvcC : Option (List Nat)
deriving DecidableEq

def initVideoTrack : VideoTrack :=
  { present := false, timescale := 0, formatTimescale := 0, samples := [], warnings := [],
    codecType := .unknown, codec := [], width := 0, height := 0, sar := [],
    fpsNum := 0, fpsDen := 0, sps := [], pps := [], vps := [], nalUnitSize := 4, hvcC := none }

/-- Modelled from the spec: VideoTrack.reset clears samples, warnings, codec
fields and parameter sets; presence and timescales persist, the NAL length
size returns to its default 4. -/
def VideoTrack.reset (t : VideoTrack) : VideoTrack :=
  { t with samples := [], warnings := [], codecType := .unknown, codec := [],
           width := 0, height := 0, sar := [], fpsNum := 0, fpsDen := 0,
           sps := [], pps := [], vps := [], nalUnitSize := 4, hvcC := none }

def VideoTrack.exist (t : VideoTrack) : Bool := t.present

def VideoTrack.hasSample (t : VideoTrack) : Bool := !t.samples.isEmpty

/-- Modelled from the spec: the MetadataTrack record of the model collaborator. -/
structure MetadataTrack where
  timescale : Nat
  seiSamples : List SeiSample
  flvScriptSamples : List FlvScriptSample
deriving DecidableEq

def initMetadataTrack : MetadataTrack :=
  { timescale := 0, seiSamples := [], flvScriptSamples := [] }

def MetadataTrack.reset (t : MetadataTrack) : MetadataTrack :=
  { t with seiSamples := [], flvScriptSamples := [] }

/-- Result of AAC.parseAudioSpecificConfig. -/
structure AscInfo where
  codec : List Nat
  channelCount : Nat
  sampleRate : Nat
  config : List Nat
  objectType : Nat
  samplingFrequencyIndex : Nat
deriving DecidableEq

/-- Parsed SPS fields inside a decoder configuration record. -/
structure SpsInfo where
  codec : List Nat
  width : Nat
  height : Nat
  sar : List Nat
  fpsNum : Nat
  fpsDen : Nat
deriving DecidableEq

/-- Result of AVC/HEVC.parse...DecoderConfigurationRecord. -/
structure DcrInfo where
  hvcC : Option (List Nat)
  sps : Option SpsInfo
  spsArr : List (List Nat)
  ppsArr : List (List Nat)
  vpsArr : Option (List (List Nat))
  nalUnitSize : Nat
deriving DecidableEq

/-- The codec collaborators consumed by the demuxer core, as pure functions.
SEI payloads and AMF values are carried opaquely as byte lists. -/
structure Collab where
  parseAudioSpecificConfig : List Nat → Option AscInfo
  parseAvcDcr : List Nat → Option DcrInfo
  parseHevcDcr : List Nat → Option DcrInfo
  parseAvcC : List Nat → Nat → List (List Nat)
  removeEPB : List Nat → List Nat
  parseSEI : List Nat → Bool → List Nat
  amfParse : List Nat → List Nat

/-- The demuxer instance: the four cross-call state fields of FlvDemuxer,
the three owned tracks, and the stream of logger warnings. -/
structure Demuxer where
  headerParsed : Bool
  remainingData : Option (List Nat)
  gopId : Nat
  needAddMetaBeforeKeyFrameNal : Bool
  videoTrack : VideoTrack
  audioTrack : AudioTrack
  metadataTrack : MetadataTrack
  log : List LogMsg
deriving DecidableEq

def initDemuxer : Demuxer :=
  { headerParsed := false, remainingData := none, gopId := 0,
    needAddMetaBeforeKeyFrameNal := true,
    videoTrack := initVideoTrack, audioTrack := initAudioTrack,
    metadataTrack := initMetadataTrack, log := [] }

/-- FlvDemuxer.probe: the four signature bytes are compared with strict
equality (a missing byte is undefined and fails the comparison), then the
header length field at offset 5 must be at least 9. -/
def probe (data : List Nat) : Bool :=
  if !(data[0]? == some 0x46 && data[1]? == some 0x4C &&
       data[2]? == some 0x56 && data[3]? == some 0x01) then false
  else decide (9 ≤ readBig32 data 5)

/-- FlvDemuxer.AUDIO_RATE. -/
def AUDIO_RATE : List Nat := [5500, 11000, 22000, 44000]

/-- FlvDemuxer._parseG711. -/
def _parseG711 (st : Demuxer) (data : List Nat) (pts : Option Nat) (format : Nat) : Demuxer :=
  let ct : AudioCodecType := if format = 7 then .g711pcma else .g711pcmu
  { st with audioTrack := { st.audioTrack with
      codecType := ct,
      sampleRate := 8000,
      codec := ct.str,
      samples := st.audioTrack.samples ++ [⟨pts, data.drop 1⟩] } }

/-- FlvDemuxer._parseAac.  data[1] is the AACPacketType; a missing byte is
undefined and matches neither 0 nor 1. -/
def _parseAac (c : Collab) (st : Demuxer) (data : List Nat) (pts : Option Nat) : Demuxer :=
  let st := { st with audioTrack := { st.audioTrack with codecType := .aac } }
  if data[1]? == some 0 then
    match c.parseAudioSpecificConfig (data.drop 2) with
    | some ret =>
      { st with audioTrack := { st.audioTrack with
          codec := ret.codec, channelCount := ret.channelCount,
          sampleRate := ret.sampleRate, config := ret.config,
          objectType := ret.objectType, sampleRateIndex := ret.samplingFrequencyIndex } }
    | none =>
      { st with audioTrack := st.audioTrack.reset,
                log := st.log ++ [.cannotParseAudioSpecificConfig] }
  else if data[1]? == some 1 then
    match pts with
    | none => st
    | some p =>
      { st with audioTrack := { st.audioTrack with
          samples := st.audioTrack.samples ++ [⟨some p, data.drop 2⟩] } }
  else
    { st with log := st.log ++ [.unknownAacPacketType data[1]?] }

/-- FlvDemuxer._parseAudio. -/
def _parseAudio (c : Collab) (st : Demuxer) (data : List Nat) (pts : Option Nat) : Demuxer :=
  if data.length = 0 then st
  else
    let format := byte data 0 % 256 / 16
    if format ≠ 10 ∧ format ≠ 7 ∧ format ≠ 8 then
      { st with audioTrack := st.audioTrack.reset,
                log := st.log ++ [.unsupportedSoundFormat format] }
    else
      let st :=
        if format ≠ 10 then
          let soundRate := byte data 0 % 16 / 4
          let soundSize := byte data 0 % 4 / 2
          let soundType := byte data 0 % 2
          { st with audioTrack := { st.audioTrack with
              sampleRate := AUDIO_RATE.getD soundRate 0,
              sampleSize := if soundSize ≠ 0 then 16 else 8,
              channelCount := soundType + 1 } }
        else st
      if format = 10 then _parseAac c st data pts else _parseG711 st data pts format

/-- NAL unit type extraction used by the unit scan of _parseVideo. -/
def nalTypeOf (hevc : Bool) (u : List Nat) : Nat :=
  if hevc then byte u 0 / 2 % 64 else byte u 0 % 32

/-- The keyframe arm of the switch in _parseVideo: one of the listed case
labels is hit and the guarded break does not fire. -/
def keyNalHit (hevc : Bool) (t : Nat) : Bool :=
  (t == 5 || t == 16 || t == 17 || t == 18 || t == 19 ||
   t == 20 || t == 21 || t == 22 || t == 23) &&
  !((!hevc && t != 5) || (hevc && t == 5))

/-- The SEI arm of the switch in _parseVideo. -/
def seiNalHit (hevc : Bool) (t : Nat) : Bool :=
  (t == 6 || t == 39 || t == 40) && !((!hevc && t != 6) || (hevc && t == 6))

/-- FlvDemuxer._checkAddMetaNalToUnits, functionalised over the latch: the
pair returned is (unit list, new latch value).  The unshift sequence
prepends pps[0], sps[0], vps[0] in reverse so the list starts vps, sps, pps;
filter(Boolean) drops exactly the missing (undefined) entries, every real
unit being a truthy object.  Only the first two branches assign the latch. -/
def _checkAddMetaNalToUnits (hevc : Bool) (units : List (List Nat))
    (track : VideoTrack) (need : Bool) : List (List Nat) × Bool :=
  if !hevc || !need then (units, false)
  else
    let nalTypes := units.map fun x => byte x 0 / 2 % 64
    if nalTypes.contains 32 then (units, false)
    else (([track.vps.head?, track.sps.head?, track.pps.head?].filterMap id) ++ units, need)

/-- The field-overwrite chain applied to the video track when a decoder
configuration record parses (packetType 0 branch of _parseVideo): hvcC is
kept if already set, the parsed SPS fields overwrite, and sps/pps/vps and
nalUnitSize are taken from the record when non-empty. -/
def applyDcr (track : VideoTrack) (r : DcrInfo) : VideoTrack :=
  let track := if r.hvcC.isSome then
      { track with hvcC := match track.hvcC with | some h => some h | none => r.hvcC }
    else track
  let track := match r.sps with
    | some s => { track with codec := s.codec, width := s.width, height := s.height,
                             sar := s.sar, fpsNum := s.fpsNum, fpsDen := s.fpsDen }
    | none => track
  let track := if r.spsArr ≠ [] then { track with sps := r.spsArr } else track
  let track := if r.ppsArr ≠ [] then { track with pps := r.ppsArr } else track
  let track := match r.vpsArr with
    | some v => if v ≠ [] then { track with vps := v } else track
    | none => track
  if r.nalUnitSize ≠ 0 then { track with nalUnitSize := r.nalUnitSize } else track

/-- FlvDemuxer._parseVideo. -/
def _parseVideo (c : Collab) (st : Demuxer) (data : List Nat) (dts : Nat) : Demuxer :=
  if data.length < 6 then st
  else
    let frameType := byte data 0 % 256 / 16
    let codecId := byte data 0 % 16
    if codecId ≠ 7 ∧ codecId ≠ 12 then
      { st with videoTrack := st.videoTrack.reset,
                log := st.log ++ [.unsupportedCodecId codecId] }
    else
      let isHevc := codecId == 12
      let st := { st with videoTrack :=
        { st.videoTrack with codecType := if isHevc then .hevc else .avc } }
      let track := st.videoTrack
      let packetType := byte data 1
      let cts := ctsOf (byte data 2) (byte data 3) (byte data 4)
      if packetType = 0 then
        let ret := if isHevc then c.parseHevcDcr (data.drop 5) else c.parseAvcDcr (data.drop 5)
        match ret with
        | some r => { st with videoTrack := applyDcr track r }
        | none => { st with log := st.log ++ [.cannotParseDcr isHevc] }
      else if packetType = 1 then
        let units0 := c.parseAvcC (data.drop 5) track.nalUnitSize
        let checked := _checkAddMetaNalToUnits isHevc units0 track st.needAddMetaBeforeKeyFrameNal
        let units := checked.1
        let st := { st with needAddMetaBeforeKeyFrameNal := checked.2 }
        if units ≠ [] then
          let keyframe := (frameType == 1) || units.any fun u => keyNalHit isHevc (nalTypeOf isHevc u)
          let seis := (units.filter fun u => seiNalHit isHevc (nalTypeOf isHevc u)).map
            fun u => SeiSample.mk (c.parseSEI (c.removeEPB u) isHevc) ((dts : Int) + cts)
          let gop := if keyframe then st.gopId + 1 else st.gopId
          let sample : VideoSample :=
            { pts := (dts : Int) + cts, dts := dts, units := units, keyframe := keyframe, gopId := gop }
          { st with gopId := gop,
                    videoTrack := { st.videoTrack with samples := st.videoTrack.samples ++ [sample] },
                    metadataTrack := { st.metadataTrack with
                      seiSamples := st.metadataTrack.seiSamples ++ seis } }
        else
          { st with log := st.log ++ [.cannotParseNalus] }
      else if packetType = 2 then st
      else { st with log := st.log ++ [.unknownAvcPacketType packetType] }

/-- FlvDemuxer._parseScript. -/
def _parseScript (c : Collab) (st : Demuxer) (data : List Nat) (pts : Nat) : Demuxer :=
  { st with metadataTrack := { st.metadataTrack with
      flvScriptSamples := st.metadataTrack.flvScriptSamples ++ [⟨c.amfParse data, pts⟩] } }

/-- One iteration body of the tag loop of demux, phrased on the suffix of the
buffer that starts at the cursor: read the tag header, dispatch the body,
check the trailing previous-tag-size field. -/
def handleTag (c : Collab) (st : Demuxer) (rest : List Nat) (dataSize : Nat) : Demuxer :=
  let tagType := byte rest 0
  let timestamp := tsOf (byte rest 4) (byte rest 5) (byte rest 6) (byte rest 7)
  let body := (rest.drop 11).take dataSize
  let st :=
    if tagType = 8 then _parseAudio c st body (some timestamp)
    else if tagType = 9 then _parseVideo c st body timestamp
    else if tagType = 18 then _parseScript c st body timestamp
    else { st with log := st.log ++ [.invalidTagType tagType] }
  let prevTagSize := readBig32 rest (11 + dataSize)
  if prevTagSize ≠ 11 + dataSize then
    { st with log := st.log ++ [.invalidPrevTagSize prevTagSize (11 + dataSize)] }
  else st

/-- The tag loop of demux, on the suffix of the buffer from the cursor, with
explicit fuel (each iteration consumes at least 16 bytes, so fuel equal to
the length of the suffix always suffices).  The loop guard offset + 15 lt
dataLen becomes 15 lt rest.length, and the incomplete-tag break
offset + 15 + dataSize gt dataLen becomes rest.length lt 15 + dataSize. -/
def tagLoopAux (c : Collab) : Nat → Demuxer → List Nat → Demuxer × List Nat
  | 0, st, rest => (st, rest)
  | fuel + 1, st, rest =>
    if 15 < rest.length then
      if rest.length < 15 + dsOf rest then (st, rest)
      else tagLoopAux c fuel (handleTag c st rest (dsOf rest)) (rest.drop (15 + dsOf rest))
    else (st, rest)

def tagLoop (c : Collab) (st : Demuxer) (rest : List Nat) : Demuxer × List Nat :=
  tagLoopAux c rest.length st rest

/-- The per-call clearing of transient output in demux (non-discontinuous
branch). -/
def clearTransient (st : Demuxer) : Demuxer :=
  { st with
    videoTrack := { st.videoTrack with samples := [], warnings := [] },
    audioTrack := { st.audioTrack with samples := [], warnings := [] },
    metadataTrack := { st.metadataTrack with seiSamples := [], flvScriptSamples := [] } }

/-- The full track reset on discontinuity. -/
def resetAllTracks (st : Demuxer) : Demuxer :=
  { st with videoTrack := st.videoTrack.reset, audioTrack := st.audioTrack.reset,
            metadataTrack := st.metadataTrack.reset }

/-- Header flags byte: bit 2 advertises audio, bit 0 advertises video. -/
def applyHeaderFlags (st : Demuxer) (data : List Nat) : Demuxer :=
  { st with
    audioTrack := { st.audioTrack with present := decide (byte data 4 % 8 / 4 ≠ 0) },
    videoTrack := { st.videoTrack with present := decide (byte data 4 % 2 ≠ 0) },
    headerParsed := true }

/-- End of demux: store the leftover bytes, set the timescales, and reset any
track that has samples without being advertised by the header. -/
def finalizeDemux (st : Demuxer) (leftover : List Nat) : Demuxer :=
  let st := if leftover.isEmpty then st else { st with remainingData := some leftover }
  let st := { st with
    audioTrack := { st.audioTrack with formatTimescale := 1000, timescale := st.audioTrack.sampleRate },
    videoTrack := { st.videoTrack with formatTimescale := 1000, timescale := 1000 },
    metadataTrack := { st.metadataTrack with timescale := 1000 } }
  let st := if !st.audioTrack.exist && st.audioTrack.hasSample then
      { st with audioTrack := st.audioTrack.reset } else st
  if !st.videoTrack.exist && st.videoTrack.hasSample then
      { st with videoTrack := st.videoTrack.reset } else st

/-- FlvDemuxer.demux.  none models the thrown Invalid-flv error. -/
def demux (c : Collab) (st0 : Demuxer) (data0 : List Nat)
    (discontinuity contiguous : Bool) : Option Demuxer :=
  let st1 := if discontinuity || !contiguous then { st0 with remainingData := none } else st0
  let st2 := if discontinuity then { st1 with headerParsed := false } else st1
  let pre : Demuxer × List Nat :=
    if discontinuity then (resetAllTracks st2, data0)
    else
      let stc := clearTransient st2
      match stc.remainingData with
      | some r => ({ stc with remainingData := none }, r ++ data0)
      | none => (stc, data0)
  let st := pre.1
  let data := pre.2
  if data.length = 0 then some st
  else
    let hdr : Option (Demuxer × Nat) :=
      if !st.headerParsed then
        if !probe data then none
        else some (applyHeaderFlags st data, readBig32 data 5 + 4)
      else some (st, 0)
    match hdr with
    | none => none
    | some (sth, offset) =>
      let r := tagLoop c sth (data.drop offset)
      some (finalizeDemux r.1 r.2)

/-- A concrete collaborator instance used by witnesses: configuration records
never parse, a non-empty AVCC payload is one single unit, SEI and AMF parsing
are the identity. -/
def collabW : Collab :=
  { parseAudioSpecificConfig := fun _ => none,
    parseAvcDcr := fun _ => none,
    parseHevcDcr := fun _ => none,
    parseAvcC := fun b _ => if b.isEmpty then [] else [b],
    removeEPB := fun b => b,
    parseSEI := fun b _ => b,
    amfParse := fun b => b }


/-! ## Infrastructure for the chunking analysis -/

/-- Per-call transient output of the demuxer: the four sample lists. -/
structure Outs where
  v : List VideoSample
  a : List AudioSample
  se : List SeiSample
  sc : List FlvScriptSample

/-- Prepend previously produced output to a state. -/
def addOut (o : Outs) (st : Demuxer) : Demuxer :=
  { st with
    videoTrack := { st.videoTrack with samples := o.v ++ st.videoTrack.samples }
    audioTrack := { st.audioTrack with samples := o.a ++ st.audioTrack.samples }
    metadataTrack := { st.metadataTrack with
      seiSamples := o.se ++ st.metadataTrack.seiSamples
      flvScriptSamples := o.sc ++ st.metadataTrack.flvScriptSamples } }

/-- The transient output carried by a state. -/
def outsOf (st : Demuxer) : Outs :=
  ⟨st.videoTrack.samples, st.audioTrack.samples,
   st.metadataTrack.seiSamples, st.metadataTrack.flvScriptSamples⟩

/-- The timescale assignments performed at the end of demux, with the audio
timescale value abstracted. -/
def setTsD (st : Demuxer) (a : Nat) : Demuxer :=
  { st with
    audioTrack := { st.audioTrack with formatTimescale := 1000, timescale := a }
    videoTrack := { st.videoTrack with formatTimescale := 1000, timescale := 1000 }
    metadataTrack := { st.metadataTrack with timescale := 1000 } }

/-- Does dispatching this tag body reset a track?  Mirrors the three reset
sites reachable from the tag loop: unsupported sound format, failing
AudioSpecificConfig parse, unsupported video codec id. -/
def tagBodyResets (c : Collab) (tagType : Nat) (body : List Nat) : Bool :=
  if tagType = 8 then
    if body.length = 0 then false
    else
      let format := byte body 0 % 256 / 16
      if format ≠ 10 ∧ format ≠ 7 ∧ format ≠ 8 then true
      else if format = 10 then
        decide (body[1]? = some 0 ∧ c.parseAudioSpecificConfig (body.drop 2) = none)
      else false
  else if tagType = 9 then
    if body.length < 6 then false
    else decide (byte body 0 % 16 ≠ 7 ∧ byte body 0 % 16 ≠ 12)
  else false

/-- No tag dispatched by the tag loop on this suffix resets a track. -/
def cleanLoopAux (c : Collab) : Nat → List Nat → Bool
  | 0, _ => true
  | fuel + 1, rest =>
    if 15 < rest.length then
      if rest.length < 15 + dsOf rest then true
      else (!tagBodyResets c (byte rest 0) ((rest.drop 11).take (dsOf rest))) &&
           cleanLoopAux c fuel (rest.drop (15 + dsOf rest))
    else true

def cleanLoop (c : Collab) (rest : List Nat) : Bool :=
  cleanLoopAux c rest.length rest

/-! ### Byte-access agreement lemmas -/

theorem byte_append_left (xs ys : List Nat) (i : Nat) (h : i < xs.length) :
    byte (xs ++ ys) i = byte xs i := by
  simp only [byte, List.getD, List.get?_eq_getElem?]
  rw [List.getElem?_append, if_pos h]

theorem readBig32_append_left (xs ys : List Nat) (i : Nat) (h : i + 3 < xs.length) :
    readBig32 (xs ++ ys) i = readBig32 xs i := by
  unfold readBig32
  rw [byte_append_left _ _ _ (by omega), byte_append_left _ _ _ (by omega),
      byte_append_left _ _ _ (by omega), byte_append_left _ _ _ (by omega)]

theorem dsOf_append_left (xs ys : List Nat) (h : 3 < xs.length) :
    dsOf (xs ++ ys) = dsOf xs := by
  unfold dsOf
  rw [byte_append_left _ _ _ (by omega), byte_append_left _ _ _ (by omega),
      byte_append_left _ _ _ (by omega)]

theorem take_append_left (xs ys : List Nat) (n : Nat) (h : n ≤ xs.length) :
    (xs ++ ys).take n = xs.take n :=
  List.take_append_of_le_length h

theorem drop_append_left (xs ys : List Nat) (n : Nat) (h : n ≤ xs.length) :
    (xs ++ ys).drop n = xs.drop n ++ ys := by
  rw [List.drop_append_eq_append_drop, Nat.sub_eq_zero_of_le h, List.drop_zero]

/-- handleTag reads only the first 15 + dataSize bytes of the suffix. -/
theorem handleTag_append_left (c : Collab) (st : Demuxer) (xs ys : List Nat) (ds : Nat)
    (h : 15 + ds ≤ xs.length) :
    handleTag c st (xs ++ ys) ds = handleTag c st xs ds := by
  unfold handleTag
  rw [byte_append_left _ _ _ (by omega), byte_append_left _ _ _ (by omega),
      byte_append_left _ _ _ (by omega), byte_append_left _ _ _ (by omega),
      byte_append_left _ _ _ (by omega),
      drop_append_left _ _ _ (by omega), take_append_left _ _ _ (by simp; omega),
      readBig32_append_left _ _ _ (by omega)]

/-! ### Fuel irrelevance and unfolding lemmas for the tag loop -/

theorem tagLoopAux_mono (c : Collab) :
    ∀ f g st (rest : List Nat), rest.length ≤ f → rest.length ≤ g →
      tagLoopAux c f st rest = tagLoopAux c g st rest := by
  intro f
  induction f with
  | zero =>
    intro g st rest hf hg
    cases g with
    | zero => rfl
    | succ g =>
      have : rest.length = 0 := by omega
      simp [tagLoopAux, this]
  | succ f ih =>
    intro g st rest hf hg
    cases g with
    | zero =>
      have : rest.length = 0 := by omega
      simp [tagLoopAux, this]
    | succ g =>
      simp only [tagLoopAux]
      by_cases h1 : 15 < rest.length
      · simp only [h1, if_true]
        by_cases h2 : rest.length < 15 + dsOf rest
        · simp [h2]
        · simp only [h2, if_false]
          exact ih g _ _ (by simp; omega) (by simp; omega)
      · simp [h1]

theorem tagLoop_stop_short (c : Collab) (st : Demuxer) (rest : List Nat)
    (h : rest.length ≤ 15) : tagLoop c st rest = (st, rest) := by
  unfold tagLoop
  cases hl : rest.length with
  | zero => simp [tagLoopAux]
  | succ n =>
    simp only [tagLoopAux]
    rw [if_neg (Nat.not_lt.mpr h)]

theorem tagLoop_stop_break (c : Collab) (st : Demuxer) (rest : List Nat)
    (h1 : 15 < rest.length) (h2 : rest.length < 15 + dsOf rest) :
    tagLoop c st rest = (st, rest) := by
  unfold tagLoop
  obtain ⟨n, hl⟩ : ∃ n, rest.length = n + 1 := ⟨rest.length - 1, by omega⟩
  rw [hl]
  simp only [tagLoopAux]
  rw [if_pos h1, if_pos h2]

theorem tagLoop_step (c : Collab) (st : Demuxer) (rest : List Nat)
    (h1 : 15 < rest.length) (h2 : 15 + dsOf rest ≤ rest.length) :
    tagLoop c st rest =
      tagLoop c (handleTag c st rest (dsOf rest)) (rest.drop (15 + dsOf rest)) := by
  conv_lhs => unfold tagLoop
  obtain ⟨n, hl⟩ : ∃ n, rest.length = n + 1 := ⟨rest.length - 1, by omega⟩
  rw [hl]
  simp only [tagLoopAux]
  rw [if_pos h1, if_neg (by omega : ¬rest.length < 15 + dsOf rest)]
  unfold tagLoop
  exact tagLoopAux_mono c n _ _ _ (by simp; omega) (by omega)

/-! ### Clean-loop unfolding lemmas -/

theorem cleanLoopAux_mono (c : Collab) :
    ∀ f g (rest : List Nat), rest.length ≤ f → rest.length ≤ g →
      cleanLoopAux c f rest = cleanLoopAux c g rest := by
  intro f
  induction f with
  | zero =>
    intro g rest hf hg
    cases g with
    | zero => rfl
    | succ g =>
      have : rest.length = 0 := by omega
      simp [cleanLoopAux, this]
  | succ f ih =>
    intro g rest hf hg
    cases g with
    | zero =>
      have : rest.length = 0 := by omega
      simp [cleanLoopAux, this]
    | succ g =>
      simp only [cleanLoopAux]
      by_cases h1 : 15 < rest.length
      · simp only [h1, if_true]
        by_cases h2 : rest.length < 15 + dsOf rest
        · simp [h2]
        · simp only [h2, if_false]
          rw [ih g _ (by simp; omega) (by simp; omega)]
      · simp [h1]

theorem cleanLoop_stop_short (c : Collab) (rest : List Nat)
    (h : rest.length ≤ 15) : cleanLoop c rest = true := by
  unfold cleanLoop
  cases hl : rest.length with
  | zero => simp [cleanLoopAux]
  | succ n =>
    simp only [cleanLoopAux]
    rw [if_neg (Nat.not_lt.mpr h)]

theorem cleanLoop_stop_break (c : Collab) (rest : List Nat)
    (h1 : 15 < rest.length) (h2 : rest.length < 15 + dsOf rest) :
    cleanLoop c rest = true := by
  unfold cleanLoop
  obtain ⟨n, hl⟩ : ∃ n, rest.length = n + 1 := ⟨rest.length - 1, by omega⟩
  rw [hl]
  simp only [cleanLoopAux]
  rw [if_pos h1, if_pos h2]

theorem cleanLoop_step (c : Collab) (rest : List Nat)
    (h1 : 15 < rest.length) (h2 : 15 + dsOf rest ≤ rest.length) :
    cleanLoop c rest =
      ((!tagBodyResets c (byte rest 0) ((rest.drop 11).take (dsOf rest))) &&
        cleanLoop c (rest.drop (15 + dsOf rest))) := by
  conv_lhs => unfold cleanLoop
  obtain ⟨n, hl⟩ : ∃ n, rest.length = n + 1 := ⟨rest.length - 1, by omega⟩
  rw [hl]
  simp only [cleanLoopAux]
  rw [if_pos h1, if_neg (by omega : ¬rest.length < 15 + dsOf rest)]
  unfold cleanLoop
  rw [cleanLoopAux_mono c n (rest.drop (15 + dsOf rest)).length (rest.drop (15 + dsOf rest))
        (by simp; omega) le_rfl]

/-! ### The tag loop is incremental: processing a buffer and then the
leftover prefixed to more bytes is processing the concatenation. -/

theorem tagLoop_append (c : Collab) :
    ∀ n (xs : List Nat), xs.length ≤ n → ∀ (ys : List Nat) st,
      tagLoop c st (xs ++ ys) =
        tagLoop c (tagLoop c st xs).1 ((tagLoop c st xs).2 ++ ys) := by
  intro n
  induction n with
  | zero =>
    intro xs hx ys st
    have hxe : xs = [] := List.length_eq_zero.mp (by omega)
    subst hxe
    rw [tagLoop_stop_short c st [] (by simp)]
  | succ n ih =>
    intro xs hx ys st
    by_cases h1 : 15 < xs.length
    · by_cases h2 : 15 + dsOf xs ≤ xs.length
      · have hds : dsOf (xs ++ ys) = dsOf xs := dsOf_append_left xs ys (by omega)
        have hstep : tagLoop c st (xs ++ ys) =
            tagLoop c (handleTag c st (xs ++ ys) (dsOf (xs ++ ys)))
              ((xs ++ ys).drop (15 + dsOf (xs ++ ys))) := by
          refine tagLoop_step c st (xs ++ ys) (by simp; omega) ?_
          rw [hds]
          simp
          omega
        rw [hstep, hds, handleTag_append_left c st xs ys (dsOf xs) h2,
            drop_append_left xs ys (15 + dsOf xs) h2,
            tagLoop_step c st xs h1 h2]
        exact ih (xs.drop (15 + dsOf xs)) (by simp; omega) ys (handleTag c st xs (dsOf xs))
      · rw [tagLoop_stop_break c st xs h1 (by omega)]
    · rw [tagLoop_stop_short c st xs (by omega)]

/-- Cleanliness of the tags of a concatenation passes to the leftover of a
prefix run together with the appended bytes. -/
theorem cleanLoop_append (c : Collab) :
    ∀ n (xs : List Nat), xs.length ≤ n → ∀ (ys : List Nat),
      cleanLoop c (xs ++ ys) = true → ∀ st,
      cleanLoop c ((tagLoop c st xs).2 ++ ys) = true := by
  intro n
  induction n with
  | zero =>
    intro xs hx ys hcl st
    have hxe : xs = [] := List.length_eq_zero.mp (by omega)
    subst hxe
    rw [tagLoop_stop_short c st [] (by simp)]
    exact hcl
  | succ n ih =>
    intro xs hx ys hcl st
    by_cases h1 : 15 < xs.length
    · by_cases h2 : 15 + dsOf xs ≤ xs.length
      · have hds : dsOf (xs ++ ys) = dsOf xs := dsOf_append_left xs ys (by omega)
        have hstepc : cleanLoop c (xs ++ ys) =
            ((!tagBodyResets c (byte (xs ++ ys) 0) (((xs ++ ys).drop 11).take (dsOf (xs ++ ys)))) &&
              cleanLoop c ((xs ++ ys).drop (15 + dsOf (xs ++ ys)))) := by
          refine cleanLoop_step c (xs ++ ys) (by simp; omega) ?_
          rw [hds]; simp; omega
        rw [hstepc, hds, drop_append_left xs ys (15 + dsOf xs) h2] at hcl
        rw [tagLoop_step c st xs h1 h2]
        exact ih (xs.drop (15 + dsOf xs)) (by simp; omega) ys (by
          exact (Bool.and_eq_true_iff.mp hcl).2) _
      · rw [tagLoop_stop_break c st xs h1 (by omega)]
        exact hcl
    · rw [tagLoop_stop_short c st xs (by omega)]
      exact hcl

/-! ### Output-prefix equivariance: as long as no track reset fires, the
parsing functions only append to the sample lists, so running them from a
state with extra output prefixed equals prefixing afterwards. -/

theorem _parseG711_addOut (o : Outs) (st : Demuxer) (data : List Nat)
    (pts : Option Nat) (format : Nat) :
    _parseG711 (addOut o st) data pts format = addOut o (_parseG711 st data pts format) := by
  simp [_parseG711, addOut, List.append_assoc]

theorem _parseScript_addOut (c : Collab) (o : Outs) (st : Demuxer) (data : List Nat) (pts : Nat) :
    _parseScript c (addOut o st) data pts = addOut o (_parseScript c st data pts) := by
  simp [_parseScript, addOut, List.append_assoc]

theorem _parseAac_addOut (c : Collab) (o : Outs) (st : Demuxer) (data : List Nat)
    (pts : Option Nat)
    (h : ¬(data[1]? = some 0 ∧ c.parseAudioSpecificConfig (data.drop 2) = none)) :
    _parseAac c (addOut o st) data pts = addOut o (_parseAac c st data pts) := by
  unfold _parseAac
  by_cases h0 : data[1]? = some 0
  · simp only [h0, beq_self_eq_true, if_true]
    cases hasc : c.parseAudioSpecificConfig (data.drop 2) with
    | none => exact absurd ⟨h0, hasc⟩ h
    | some r => simp [addOut]
  · simp only [beq_iff_eq, h0, if_false]
    by_cases h1 : data[1]? = some 1
    · simp only [h1, beq_self_eq_true, if_true]
      cases pts with
      | none => simp [addOut]
      | some p => simp [addOut, List.append_assoc]
    · simp [h1, addOut]

theorem _parseAudio_addOut (c : Collab) (o : Outs) (st : Demuxer) (data : List Nat)
    (pts : Option Nat) (h : tagBodyResets c 8 data = false) :
    _parseAudio c (addOut o st) data pts = addOut o (_parseAudio c st data pts) := by
  unfold _parseAudio
  by_cases hlen : data.length = 0
  · simp [hlen]
  · unfold tagBodyResets at h
    simp only [if_pos rfl, hlen, if_false] at h
    by_cases hfmt : byte data 0 % 256 / 16 ≠ 10 ∧ byte data 0 % 256 / 16 ≠ 7 ∧
        byte data 0 % 256 / 16 ≠ 8
    · rw [if_pos hfmt] at h
      exact absurd h (by simp)
    · rw [if_neg hfmt] at h
      simp only [hlen, if_false, if_neg hfmt]
      by_cases h10 : byte data 0 % 256 / 16 = 10
      · rw [if_pos h10] at h
        simp only [if_true, decide_eq_false_iff_not] at h
        simp only [h10, ne_eq, not_true_eq_false, if_false, if_true]
        unfold _parseAac
        by_cases h0 : data[1]? = some 0
        · simp only [h0, beq_self_eq_true, if_true]
          cases hasc : c.parseAudioSpecificConfig (data.drop 2) with
          | none => exact absurd ⟨h0, hasc⟩ h
          | some r => simp [addOut]
        · have h0b : (data[1]? == some 0) = false := by simpa using h0
          simp only [h0b, Bool.false_eq_true, if_false]
          by_cases h1 : data[1]? = some 1
          · simp only [h1, beq_self_eq_true, if_true]
            cases pts with
            | none => simp [addOut]
            | some p => simp [addOut, List.append_assoc]
          · have h1b : (data[1]? == some 1) = false := by simpa using h1
            simp only [h1b, Bool.false_eq_true, if_false]
            simp [addOut]
      · simp only [h10, ne_eq, not_false_eq_true, if_true, if_neg h10]
        simp [_parseG711, addOut, List.append_assoc]

theorem applyDcr_samples_comm (t : VideoTrack) (r : DcrInfo) (x : List VideoSample) :
    applyDcr { t with samples := x } r = { applyDcr t r with samples := x } := by
  cases t
  simp only [applyDcr]
  repeat' split
  all_goals rfl

/-- applyDcr in constructor-normal form: the sample list passes through. -/
theorem applyDcr_mk (r : DcrInfo) (p : Bool) (ts fts : Nat) (x : List VideoSample)
    (w : List LogMsg) (ct : VideoCodecType) (cdc : List Nat) (wd ht : Nat) (sr : List Nat)
    (fn fd : Nat) (sps pps vps : List (List Nat)) (nus : Nat) (hv : Option (List Nat)) :
    applyDcr ⟨p, ts, fts, x, w, ct, cdc, wd, ht, sr, fn, fd, sps, pps, vps, nus, hv⟩ r
      = { applyDcr ⟨p, ts, fts, [], w, ct, cdc, wd, ht, sr, fn, fd, sps, pps, vps, nus, hv⟩ r
          with samples := x } :=
  applyDcr_samples_comm ⟨p, ts, fts, [], w, ct, cdc, wd, ht, sr, fn, fd, sps, pps, vps, nus, hv⟩ r x

/-- _checkAddMetaNalToUnits never reads the sample list of the track. -/
theorem _checkAddMetaNalToUnits_mk (hevc : Bool) (u : List (List Nat)) (n : Bool)
    (p : Bool) (ts fts : Nat) (x : List VideoSample)
    (w : List LogMsg) (ct : VideoCodecType) (cdc : List Nat) (wd ht : Nat) (sr : List Nat)
    (fn fd : Nat) (sps pps vps : List (List Nat)) (nus : Nat) (hv : Option (List Nat)) :
    _checkAddMetaNalToUnits hevc u ⟨p, ts, fts, x, w, ct, cdc, wd, ht, sr, fn, fd, sps, pps, vps, nus, hv⟩ n
      = _checkAddMetaNalToUnits hevc u ⟨p, ts, fts, [], w, ct, cdc, wd, ht, sr, fn, fd, sps, pps, vps, nus, hv⟩ n := rfl

theorem _parseVideo_addOut (c : Collab) (o : Outs) (st : Demuxer) (data : List Nat)
    (dts : Nat) (h : tagBodyResets c 9 data = false) :
    _parseVideo c (addOut o st) data dts = addOut o (_parseVideo c st data dts) := by
  obtain ⟨hp, rd, gid, nd, vt, au, mt, lg⟩ := st
  obtain ⟨vp, vts, vfts, vsmp, vw, vct, vcdc, vwd, vht, vsr, vfn, vfd, vsps, vpps, vvps, vnus, vhv⟩ := vt
  obtain ⟨ap, ats, afts, asmp, aw, act, acdc, asr, asz, acc, acf, aot, asri⟩ := au
  obtain ⟨mts, mse, msc⟩ := mt
  unfold _parseVideo
  by_cases h6 : data.length < 6
  · simp [h6]
  · simp only [h6, if_false]
    have hcodec : ¬(byte data 0 % 16 ≠ 7 ∧ byte data 0 % 16 ≠ 12) := by
      unfold tagBodyResets at h
      simp [h6] at h
      exact fun hc => hc.2 (h hc.1)
    simp only [if_neg hcodec]
    by_cases hp0 : byte data 1 = 0
    · simp only [hp0, if_pos rfl, if_true]
      cases hr : (if (byte data 0 % 16 == 12) then c.parseHevcDcr (data.drop 5)
                  else c.parseAvcDcr (data.drop 5)) with
      | some r =>
        simp only [addOut]
        rw [applyDcr_mk r vp vts vfts (o.v ++ vsmp), applyDcr_mk r vp vts vfts vsmp]
      | none => simp [addOut]
    · simp only [hp0, if_false]
      by_cases hp1 : byte data 1 = 1
      · simp only [hp1, if_pos rfl, if_true]
        simp only [addOut]
        rw [_checkAddMetaNalToUnits_mk _ _ _ vp vts vfts (o.v ++ vsmp),
            _checkAddMetaNalToUnits_mk _ _ _ vp vts vfts vsmp]
        repeat' split
        all_goals simp [List.append_assoc]
      · simp only [hp1, if_false]
        by_cases hp2 : byte data 1 = 2
        · simp [hp2, addOut]
        · simp [hp2, addOut]

theorem handleTag_addOut (c : Collab) (o : Outs) (st : Demuxer) (rest : List Nat) (ds : Nat)
    (h : tagBodyResets c (byte rest 0) ((rest.drop 11).take ds) = false) :
    handleTag c (addOut o st) rest ds = addOut o (handleTag c st rest ds) := by
  unfold handleTag
  by_cases h8 : byte rest 0 = 8
  · simp only [h8, if_pos rfl, if_true]
    rw [_parseAudio_addOut c o st _ _ (by rw [h8] at h; exact h)]
    split <;> simp [addOut]
  · simp only [h8, if_false]
    by_cases h9 : byte rest 0 = 9
    · simp only [h9, if_pos rfl, if_true]
      rw [_parseVideo_addOut c o st _ _ (by rw [h9] at h; exact h)]
      split <;> simp [addOut]
    · simp only [h9, if_false]
      by_cases h18 : byte rest 0 = 18
      · simp only [h18, if_pos rfl, if_true]
        rw [_parseScript_addOut c o st _ _]
        split <;> simp [addOut]
      · simp only [h18, if_false]
        split <;> simp [addOut]

theorem tagLoop_addOut (c : Collab) :
    ∀ n (rest : List Nat), rest.length ≤ n → cleanLoop c rest = true → ∀ (o : Outs) st,
      tagLoop c (addOut o st) rest =
        (addOut o (tagLoop c st rest).1, (tagLoop c st rest).2) := by
  intro n
  induction n with
  | zero =>
    intro rest hn hcl o st
    rw [tagLoop_stop_short c _ rest (by omega), tagLoop_stop_short c st rest (by omega)]
  | succ n ih =>
    intro rest hn hcl o st
    by_cases h1 : 15 < rest.length
    · by_cases h2 : 15 + dsOf rest ≤ rest.length
      · rw [cleanLoop_step c rest h1 h2, Bool.and_eq_true_iff] at hcl
        rw [tagLoop_step c _ rest h1 h2, tagLoop_step c st rest h1 h2,
            handleTag_addOut c o st rest (dsOf rest) (by
              have := hcl.1
              simpa using this)]
        exact ih (rest.drop (15 + dsOf rest)) (by simp; omega) hcl.2 o _
      · rw [tagLoop_stop_break c _ rest h1 (by omega), tagLoop_stop_break c st rest h1 (by omega)]
    · rw [tagLoop_stop_short c _ rest (by omega), tagLoop_stop_short c st rest (by omega)]

/-! ### Timescale equivariance: nothing inside the tag loop reads or writes
the timescale fields, so the end-of-call timescale assignment commutes with
tag parsing. -/

theorem applyDcr_passive (t : VideoTrack) (r : DcrInfo) (p : Bool) (ts fts : Nat)
    (x : List VideoSample) (w : List LogMsg) :
    applyDcr { t with present := p, timescale := ts, formatTimescale := fts,
                      samples := x, warnings := w } r
      = { applyDcr t r with present := p, timescale := ts, formatTimescale := fts,
                            samples := x, warnings := w } := by
  cases t
  simp only [applyDcr]
  repeat' split
  all_goals rfl

/-- applyDcr with the passive fields (presence, timescales, samples,
warnings) pushed out of the constructor. -/
theorem applyDcr_mkN (r : DcrInfo) (p : Bool) (ts fts : Nat) (x : List VideoSample)
    (w : List LogMsg) (ct : VideoCodecType) (cdc : List Nat) (wd ht : Nat) (sr : List Nat)
    (fn fd : Nat) (sps pps vps : List (List Nat)) (nus : Nat) (hv : Option (List Nat)) :
    applyDcr ⟨p, ts, fts, x, w, ct, cdc, wd, ht, sr, fn, fd, sps, pps, vps, nus, hv⟩ r
      = { applyDcr ⟨false, 0, 0, [], [], ct, cdc, wd, ht, sr, fn, fd, sps, pps, vps, nus, hv⟩ r
          with present := p, timescale := ts, formatTimescale := fts, samples := x, warnings := w } :=
  applyDcr_passive ⟨false, 0, 0, [], [], ct, cdc, wd, ht, sr, fn, fd, sps, pps, vps, nus, hv⟩ r p ts fts x w

/-- _checkAddMetaNalToUnits with the passive fields normalised away. -/
theorem _checkAddMetaNalToUnits_mkN (hevc : Bool) (u : List (List Nat)) (n : Bool)
    (p : Bool) (ts fts : Nat) (x : List VideoSample)
    (w : List LogMsg) (ct : VideoCodecType) (cdc : List Nat) (wd ht : Nat) (sr : List Nat)
    (fn fd : Nat) (sps pps vps : List (List Nat)) (nus : Nat) (hv : Option (List Nat)) :
    _checkAddMetaNalToUnits hevc u ⟨p, ts, fts, x, w, ct, cdc, wd, ht, sr, fn, fd, sps, pps, vps, nus, hv⟩ n
      = _checkAddMetaNalToUnits hevc u ⟨false, 0, 0, [], [], ct, cdc, wd, ht, sr, fn, fd, sps, pps, vps, nus, hv⟩ n := rfl

theorem _parseAudio_setTs (c : Collab) (st : Demuxer) (data : List Nat)
    (pts : Option Nat) (a : Nat) :
    _parseAudio c (setTsD st a) data pts = setTsD (_parseAudio c st data pts) a := by
  obtain ⟨hp, rd, gid, nd, vt, au, mt, lg⟩ := st
  obtain ⟨vp, vts, vfts, vsmp, vw, vct, vcdc, vwd, vht, vsr, vfn, vfd, vsps, vpps, vvps, vnus, vhv⟩ := vt
  obtain ⟨ap, ats, afts, asmp, aw, act, acdc, asr, asz, acc, acf, aot, asri⟩ := au
  obtain ⟨mts, mse, msc⟩ := mt
  unfold _parseAudio
  by_cases hlen : data.length = 0
  · simp [hlen]
  · simp only [hlen, if_false]
    by_cases hfmt : byte data 0 % 256 / 16 ≠ 10 ∧ byte data 0 % 256 / 16 ≠ 7 ∧
        byte data 0 % 256 / 16 ≠ 8
    · simp [hfmt, setTsD, AudioTrack.reset]
    · simp only [if_neg hfmt]
      by_cases h10 : byte data 0 % 256 / 16 = 10
      · simp only [h10, ne_eq, not_true_eq_false, if_false, if_true]
        unfold _parseAac
        by_cases h0 : data[1]? = some 0
        · simp only [h0, beq_self_eq_true, if_true]
          cases hasc : c.parseAudioSpecificConfig (data.drop 2) with
          | none => simp [setTsD, AudioTrack.reset]
          | some r => simp [setTsD]
        · have h0b : (data[1]? == some 0) = false := by simpa using h0
          simp only [h0b, Bool.false_eq_true, if_false]
          by_cases h1 : data[1]? = some 1
          · simp only [h1, beq_self_eq_true, if_true]
            cases pts with
            | none => simp [setTsD]
            | some p => simp [setTsD]
          · have h1b : (data[1]? == some 1) = false := by simpa using h1
            simp only [h1b, Bool.false_eq_true, if_false]
            simp [setTsD]
      · simp only [h10, ne_eq, not_false_eq_true, if_true, if_neg h10]
        simp [_parseG711, setTsD]

theorem _parseScript_setTs (c : Collab) (st : Demuxer) (data : List Nat) (pts : Nat) (a : Nat) :
    _parseScript c (setTsD st a) data pts = setTsD (_parseScript c st data pts) a := by
  simp [_parseScript, setTsD]

theorem _parseVideo_setTs (c : Collab) (st : Demuxer) (data : List Nat) (dts : Nat) (a : Nat) :
    _parseVideo c (setTsD st a) data dts = setTsD (_parseVideo c st data dts) a := by
  obtain ⟨hp, rd, gid, nd, vt, au, mt, lg⟩ := st
  obtain ⟨vp, vts, vfts, vsmp, vw, vct, vcdc, vwd, vht, vsr, vfn, vfd, vsps, vpps, vvps, vnus, vhv⟩ := vt
  obtain ⟨ap, ats, afts, asmp, aw, act, acdc, asr, asz, acc, acf, aot, asri⟩ := au
  obtain ⟨mts, mse, msc⟩ := mt
  unfold _parseVideo
  by_cases h6 : data.length < 6
  · simp [h6]
  · simp only [h6, if_false]
    by_cases hcodec : byte data 0 % 16 ≠ 7 ∧ byte data 0 % 16 ≠ 12
    · simp [hcodec, setTsD, VideoTrack.reset]
    · simp only [if_neg hcodec]
      by_cases hp0 : byte data 1 = 0
      · simp only [hp0, if_pos rfl, if_true]
        cases hr : (if (byte data 0 % 16 == 12) then c.parseHevcDcr (data.drop 5)
                    else c.parseAvcDcr (data.drop 5)) with
        | some r =>
          simp only [setTsD]
          rw [applyDcr_mkN r vp 1000 1000 vsmp vw, applyDcr_mkN r vp vts vfts vsmp vw]
        | none => simp [setTsD]
      · simp only [hp0, if_false]
        by_cases hp1 : byte data 1 = 1
        · simp only [hp1, if_pos rfl, if_true]
          simp only [setTsD]
          rw [_checkAddMetaNalToUnits_mkN _ _ _ vp 1000 1000 vsmp vw,
              _checkAddMetaNalToUnits_mkN _ _ _ vp vts vfts vsmp vw]
          repeat' split
          all_goals simp [*]
        · simp only [hp1, if_false]
          by_cases hp2 : byte data 1 = 2
          · simp [hp2, setTsD]
          · simp [hp2, setTsD]

theorem handleTag_setTs (c : Collab) (st : Demuxer) (rest : List Nat) (ds : Nat) (a : Nat) :
    handleTag c (setTsD st a) rest ds = setTsD (handleTag c st rest ds) a := by
  unfold handleTag
  by_cases h8 : byte rest 0 = 8
  · simp only [h8, if_pos rfl, if_true]
    rw [_parseAudio_setTs]
    split <;> simp [setTsD]
  · simp only [h8, if_false]
    by_cases h9 : byte rest 0 = 9
    · simp only [h9, if_pos rfl, if_true]
      rw [_parseVideo_setTs]
      split <;> simp [setTsD]
    · simp only [h9, if_false]
      by_cases h18 : byte rest 0 = 18
      · simp only [h18, if_pos rfl, if_true]
        rw [_parseScript_setTs]
        split <;> simp [setTsD]
      · simp only [h18, if_false]
        split <;> simp [setTsD]

theorem tagLoop_setTs (c : Collab) :
    ∀ n (rest : List Nat), rest.length ≤ n → ∀ st (a : Nat),
      tagLoop c (setTsD st a) rest =
        (setTsD (tagLoop c st rest).1 a, (tagLoop c st rest).2) := by
  intro n
  induction n with
  | zero =>
    intro rest hn st a
    rw [tagLoop_stop_short c _ rest (by omega), tagLoop_stop_short c st rest (by omega)]
  | succ n ih =>
    intro rest hn st a
    by_cases h1 : 15 < rest.length
    · by_cases h2 : 15 + dsOf rest ≤ rest.length
      · rw [tagLoop_step c _ rest h1 h2, tagLoop_step c st rest h1 h2, handleTag_setTs]
        exact ih (rest.drop (15 + dsOf rest)) (by simp; omega) _ a
      · rw [tagLoop_stop_break c _ rest h1 (by omega), tagLoop_stop_break c st rest h1 (by omega)]
    · rw [tagLoop_stop_short c _ rest (by omega), tagLoop_stop_short c st rest (by omega)]

/-! ### Fields that tag parsing never changes -/

/-- The cross-call bookkeeping visible to the demux driver: header flag,
buffered remainder, and the two presence flags. -/
def metaOf (st : Demuxer) : Bool × Option (List Nat) × Bool × Bool :=
  (st.headerParsed, st.remainingData, st.audioTrack.present, st.videoTrack.present)

theorem applyDcr_present (t : VideoTrack) (r : DcrInfo) :
    (applyDcr t r).present = t.present := by
  cases t
  simp only [applyDcr]
  repeat' split
  all_goals rfl

theorem applyDcr_warnings (t : VideoTrack) (r : DcrInfo) :
    (applyDcr t r).warnings = t.warnings := by
  cases t
  simp only [applyDcr]
  repeat' split
  all_goals rfl

theorem _parseAudio_pres (c : Collab) (st : Demuxer) (data : List Nat) (pts : Option Nat)
    (wa : st.audioTrack.warnings = []) (wv : st.videoTrack.warnings = []) :
    metaOf (_parseAudio c st data pts) = metaOf st ∧
    (_parseAudio c st data pts).audioTrack.warnings = [] ∧
    (_parseAudio c st data pts).videoTrack.warnings = [] := by
  obtain ⟨hp, rd, gid, nd, vt, au, mt, lg⟩ := st
  obtain ⟨vp, vts, vfts, vsmp, vw, vct, vcdc, vwd, vht, vsr, vfn, vfd, vsps, vpps, vvps, vnus, vhv⟩ := vt
  obtain ⟨ap, ats, afts, asmp, aw, act, acdc, asr, asz, acc, acf, aot, asri⟩ := au
  simp only at wa wv
  subst wa wv
  unfold _parseAudio _parseAac _parseG711 AudioTrack.reset
  repeat' split
  all_goals simp [metaOf, apply_ite Demuxer.audioTrack, apply_ite Demuxer.videoTrack,
    apply_ite AudioTrack.warnings, apply_ite VideoTrack.warnings,
    apply_ite Demuxer.headerParsed, apply_ite Demuxer.remainingData,
    apply_ite AudioTrack.present, apply_ite VideoTrack.present, ite_self]

theorem _parseVideo_pres (c : Collab) (st : Demuxer) (data : List Nat) (dts : Nat)
    (wa : st.audioTrack.warnings = []) (wv : st.videoTrack.warnings = []) :
    metaOf (_parseVideo c st data dts) = metaOf st ∧
    (_parseVideo c st data dts).audioTrack.warnings = [] ∧
    (_parseVideo c st data dts).videoTrack.warnings = [] := by
  obtain ⟨hp, rd, gid, nd, vt, au, mt, lg⟩ := st
  obtain ⟨vp, vts, vfts, vsmp, vw, vct, vcdc, vwd, vht, vsr, vfn, vfd, vsps, vpps, vvps, vnus, vhv⟩ := vt
  obtain ⟨ap, ats, afts, asmp, aw, act, acdc, asr, asz, acc, acf, aot, asri⟩ := au
  simp only at wa wv
  subst wa wv
  unfold _parseVideo
  by_cases h6 : data.length < 6
  · simp [h6, metaOf]
  · simp only [h6, if_false]
    by_cases hcodec : byte data 0 % 16 ≠ 7 ∧ byte data 0 % 16 ≠ 12
    · simp [hcodec, metaOf, VideoTrack.reset]
    · simp only [if_neg hcodec]
      by_cases hp0 : byte data 1 = 0
      · simp only [hp0, if_pos rfl, if_true]
        cases hr : (if (byte data 0 % 16 == 12) then c.parseHevcDcr (data.drop 5)
                    else c.parseAvcDcr (data.drop 5)) with
        | some r => simp [metaOf, applyDcr_present, applyDcr_warnings]
        | none => simp [metaOf]
      · simp only [hp0, if_false]
        by_cases hp1 : byte data 1 = 1
        · simp only [hp1, if_pos rfl, if_true]
          repeat' split
          all_goals simp [metaOf]
        · simp only [hp1, if_false]
          by_cases hp2 : byte data 1 = 2
          · simp [hp2, metaOf]
          · simp [hp2, metaOf]

theorem _parseScript_pres (c : Collab) (st : Demuxer) (data : List Nat) (pts : Nat)
    (wa : st.audioTrack.warnings = []) (wv : st.videoTrack.warnings = []) :
    metaOf (_parseScript c st data pts) = metaOf st ∧
    (_parseScript c st data pts).audioTrack.warnings = [] ∧
    (_parseScript c st data pts).videoTrack.warnings = [] := by
  simp [metaOf, _parseScript, wa, wv]

theorem handleTag_pres (c : Collab) (st : Demuxer) (rest : List Nat) (ds : Nat)
    (wa : st.audioTrack.warnings = []) (wv : st.videoTrack.warnings = []) :
    metaOf (handleTag c st rest ds) = metaOf st ∧
    (handleTag c st rest ds).audioTrack.warnings = [] ∧
    (handleTag c st rest ds).videoTrack.warnings = [] := by
  unfold handleTag
  have key : ∀ st2 : Demuxer, metaOf st2 = metaOf st → st2.audioTrack.warnings = [] →
      st2.videoTrack.warnings = [] →
      metaOf (if readBig32 rest (11 + ds) ≠ 11 + ds then
          { st2 with log := st2.log ++ [.invalidPrevTagSize (readBig32 rest (11 + ds)) (11 + ds)] }
        else st2) = metaOf st ∧
      (if readBig32 rest (11 + ds) ≠ 11 + ds then
          { st2 with log := st2.log ++ [.invalidPrevTagSize (readBig32 rest (11 + ds)) (11 + ds)] }
        else st2).audioTrack.warnings = [] ∧
      (if readBig32 rest (11 + ds) ≠ 11 + ds then
          { st2 with log := st2.log ++ [.invalidPrevTagSize (readBig32 rest (11 + ds)) (11 + ds)] }
        else st2).videoTrack.warnings = [] := by
    intro st2 hm ha hv
    split
    · exact ⟨by simpa [metaOf] using hm, ha, hv⟩
    · exact ⟨hm, ha, hv⟩
  by_cases h8 : byte rest 0 = 8
  · simp only [h8, if_pos rfl, if_true]
    obtain ⟨h1, h2, h3⟩ := _parseAudio_pres c st _ _ wa wv
    exact key _ h1 h2 h3
  · simp only [h8, if_false]
    by_cases h9 : byte rest 0 = 9
    · simp only [h9, if_pos rfl, if_true]
      obtain ⟨h1, h2, h3⟩ := _parseVideo_pres c st _ _ wa wv
      exact key _ h1 h2 h3
    · simp only [h9, if_false]
      by_cases h18 : byte rest 0 = 18
      · simp only [h18, if_pos rfl, if_true]
        obtain ⟨h1, h2, h3⟩ := _parseScript_pres c st _ _ wa wv
        exact key _ h1 h2 h3
      · simp only [h18, if_false]
        exact key _ (by simp [metaOf]) (by simpa) (by simpa)

theorem tagLoop_pres (c : Collab) :
    ∀ n (rest : List Nat), rest.length ≤ n → ∀ st,
      st.audioTrack.warnings = [] → st.videoTrack.warnings = [] →
      metaOf (tagLoop c st rest).1 = metaOf st ∧
      (tagLoop c st rest).1.audioTrack.warnings = [] ∧
      (tagLoop c st rest).1.videoTrack.warnings = [] := by
  intro n
  induction n with
  | zero =>
    intro rest hn st wa wv
    rw [tagLoop_stop_short c st rest (by omega)]
    exact ⟨rfl, wa, wv⟩
  | succ n ih =>
    intro rest hn st wa wv
    by_cases h1 : 15 < rest.length
    · by_cases h2 : 15 + dsOf rest ≤ rest.length
      · rw [tagLoop_step c st rest h1 h2]
        obtain ⟨g1, g2, g3⟩ := handleTag_pres c st rest (dsOf rest) wa wv
        obtain ⟨k1, k2, k3⟩ := ih (rest.drop (15 + dsOf rest)) (by simp; omega) _ g2 g3
        exact ⟨k1.trans g1, k2, k3⟩
      · rw [tagLoop_stop_break c st rest h1 (by omega)]
        exact ⟨rfl, wa, wv⟩
    · rw [tagLoop_stop_short c st rest (by omega)]
      exact ⟨rfl, wa, wv⟩

/-! ### Record bookkeeping helpers for the demux driver -/

theorem byte_take (l : List Nat) (n i : Nat) (h : i < n) :
    byte (l.take n) i = byte l i := by
  simp only [byte, List.getD, List.get?_eq_getElem?]
  rw [List.getElem?_take_of_lt h]

theorem readBig32_take (l : List Nat) (n i : Nat) (h : i + 3 < n) :
    readBig32 (l.take n) i = readBig32 l i := by
  unfold readBig32
  rw [byte_take _ _ _ (by omega), byte_take _ _ _ (by omega),
      byte_take _ _ _ (by omega), byte_take _ _ _ (by omega)]

theorem probe_take (S : List Nat) (p : Nat) (h : 9 ≤ p) :
    probe (S.take p) = probe S := by
  unfold probe
  rw [List.getElem?_take_of_lt (by omega : (0:Nat) < p),
      List.getElem?_take_of_lt (by omega : (1:Nat) < p),
      List.getElem?_take_of_lt (by omega : (2:Nat) < p),
      List.getElem?_take_of_lt (by omega : (3:Nat) < p),
      readBig32_take S p 5 (by omega)]

theorem drop_take_append_drop (S : List Nat) (p k : Nat) (h : k ≤ p) :
    (S.take p).drop k ++ S.drop p = S.drop k := by
  rw [List.drop_take]
  have : S.drop p = (S.drop k).drop (p - k) := by
    rw [List.drop_drop]
    congr 1
    omega
  rw [this, List.take_append_drop]

theorem probe_pos (S : List Nat) (h : probe S = true) :
    3 < S.length ∧ 9 ≤ readBig32 S 5 := by
  unfold probe at h
  split at h
  · exact absurd h (by simp)
  · rename_i hsig
    have hb : (S[0]? == some 70 && S[1]? == some 76 && S[2]? == some 86 && S[3]? == some 1) = true := by
      cases hX : (S[0]? == some 70 && S[1]? == some 76 && S[2]? == some 86 && S[3]? == some 1)
      · exact absurd (by rw [hX]; rfl) hsig
      · rfl
    simp only [Bool.and_eq_true, beq_iff_eq] at hb
    obtain ⟨⟨⟨h0, h1⟩, h2⟩, h3⟩ := hb
    constructor
    · by_contra hc
      rw [List.getElem?_eq_none_iff.mpr (by omega)] at h3
      exact Option.noConfusion h3
    · simpa using h

theorem clearTransient_idem (st : Demuxer) :
    clearTransient (clearTransient st) = clearTransient st := rfl

theorem applyHeaderFlags_congr (st : Demuxer) (A S : List Nat) (h : byte A 4 = byte S 4) :
    applyHeaderFlags st A = applyHeaderFlags st S := by
  unfold applyHeaderFlags
  rw [h]

theorem setRem_none_self (st : Demuxer) (h : st.remainingData = none) :
    { st with remainingData := none } = st := by
  cases st
  simp only at h
  subst h
  rfl

/-- demux on an empty buffer with nothing buffered: the transient output is
cleared and nothing else happens. -/
theorem demux_empty (c : Collab) (st : Demuxer) (h : st.remainingData = none) :
    demux c st [] false true = some (clearTransient st) := by
  obtain ⟨hp0, rd, gid, nd, vt, au, mt, lg⟩ := st
  replace h : rd = none := h
  subst h
  unfold demux clearTransient
  simp

/-- demux on a fresh demuxer: parse the header, then run the tag loop from
the offset given by the header length field plus 4. -/
theorem demux_first (c : Collab) (st : Demuxer) (data : List Nat)
    (hh : st.headerParsed = false) (hr : st.remainingData = none)
    (hne : data ≠ []) (hp : probe data = true) :
    demux c st data false true =
      some (finalizeDemux
        (tagLoop c (applyHeaderFlags (clearTransient st) data)
          (data.drop (readBig32 data 5 + 4))).1
        (tagLoop c (applyHeaderFlags (clearTransient st) data)
          (data.drop (readBig32 data 5 + 4))).2) := by
  obtain ⟨hp0, rd, gid, nd, vt, au, mt, lg⟩ := st
  replace hh : hp0 = false := hh
  replace hr : rd = none := hr
  subst hh
  subst hr
  unfold demux clearTransient applyHeaderFlags
  simp [hne, hp, List.length_eq_zero]

/-- demux on a demuxer whose header is already parsed: prepend the buffered
remainder and run the tag loop from offset 0. -/
theorem demux_cont (c : Collab) (st : Demuxer) (data : List Nat)
    (hh : st.headerParsed = true)
    (hne : st.remainingData.getD [] ++ data ≠ []) :
    demux c st data false true =
      some (finalizeDemux
        (tagLoop c { clearTransient st with remainingData := none }
          (st.remainingData.getD [] ++ data)).1
        (tagLoop c { clearTransient st with remainingData := none }
          (st.remainingData.getD [] ++ data)).2) := by
  obtain ⟨hp0, rd, gid, nd, vt, au, mt, lg⟩ := st
  replace hh : hp0 = true := hh
  replace hne : rd.getD [] ++ data ≠ [] := hne
  subst hh
  unfold demux clearTransient
  cases rd with
  | none =>
    simp only [Option.getD_none, List.nil_append] at hne ⊢
    simp [hne, List.length_eq_zero]
  | some r =>
    simp only [Option.getD_some] at hne ⊢
    have hlen : ¬(r ++ data).length = 0 := by
      simpa [List.length_eq_zero] using hne
    simp [hlen]
    intro h1 h2
    subst h1
    subst h2
    exact absurd rfl hne

/-- When both tracks are advertised by the header, the self-healing resets do
not fire and finalizeDemux is the remainder store plus the timescale writes. -/
theorem finalizeDemux_present (stf : Demuxer) (L : List Nat)
    (ha : stf.audioTrack.present = true) (hv : stf.videoTrack.present = true) :
    finalizeDemux stf L =
      setTsD (if L.isEmpty then stf else { stf with remainingData := some L })
        stf.audioTrack.sampleRate := by
  obtain ⟨hp0, rd, gid, nd, vt, au, mt, lg⟩ := stf
  replace ha : au.present = true := ha
  replace hv : vt.present = true := hv
  unfold finalizeDemux setTsD AudioTrack.exist VideoTrack.exist
  cases hL : L.isEmpty
  · simp [ha, hv]
  · simp [ha, hv]

theorem clearTransient_setTsD (st : Demuxer) (a : Nat) :
    clearTransient (setTsD st a) = setTsD (clearTransient st) a := rfl

theorem clearTransient_setRem (st : Demuxer) (r : Option (List Nat)) :
    clearTransient { st with remainingData := r } = { clearTransient st with remainingData := r } := rfl

/-- A state whose transient output lists and warnings are empty is its own
cleared-and-restored form. -/
theorem addOut_outsOf_clear (st : Demuxer)
    (wa : st.audioTrack.warnings = []) (wv : st.videoTrack.warnings = []) :
    addOut (outsOf st) (clearTransient st) = st := by
  obtain ⟨hp0, rd, gid, nd, vt, au, mt, lg⟩ := st
  obtain ⟨vp, vts, vfts, vsmp, vw, vct, vcdc, vwd, vht, vsr, vfn, vfd, vsps, vpps, vvps, vnus, vhv⟩ := vt
  obtain ⟨ap, ats, afts, asmp, aw, act, acdc, asr, asz, acc, acf, aot, asri⟩ := au
  obtain ⟨mts, mse, msc⟩ := mt
  replace wa : aw = [] := wa
  replace wv : vw = [] := wv
  subst wa
  subst wv
  simp [addOut, outsOf, clearTransient]

theorem ite_isEmpty_getD (l : List Nat) :
    (if l.isEmpty then (none : Option (List Nat)) else some l).getD [] = l := by
  cases l <;> simp

/-! ### Projection helpers used by the chunking assembly -/

theorem setTsD_samples (st : Demuxer) (a : Nat) :
    (setTsD st a).videoTrack.samples = st.videoTrack.samples ∧
    (setTsD st a).audioTrack.samples = st.audioTrack.samples ∧
    (setTsD st a).metadataTrack.seiSamples = st.metadataTrack.seiSamples ∧
    (setTsD st a).metadataTrack.flvScriptSamples = st.metadataTrack.flvScriptSamples := by
  simp [setTsD]

theorem addOut_samples (o : Outs) (st : Demuxer) :
    (addOut o st).videoTrack.samples = o.v ++ st.videoTrack.samples ∧
    (addOut o st).audioTrack.samples = o.a ++ st.audioTrack.samples ∧
    (addOut o st).metadataTrack.seiSamples = o.se ++ st.metadataTrack.seiSamples ∧
    (addOut o st).metadataTrack.flvScriptSamples = o.sc ++ st.metadataTrack.flvScriptSamples := by
  simp [addOut]

theorem metaOf_fields (s t : Demuxer) (h : metaOf s = metaOf t) :
    s.headerParsed = t.headerParsed ∧ s.remainingData = t.remainingData ∧
    s.audioTrack.present = t.audioTrack.present ∧
    s.videoTrack.present = t.videoTrack.present := by
  simp only [metaOf, Prod.mk.injEq] at h
  exact ⟨h.1, h.2.1, h.2.2.1, h.2.2.2⟩

theorem metaOf_clearTransient (st : Demuxer) : metaOf (clearTransient st) = metaOf st := rfl

theorem remW_fields (y : Demuxer) (L : List Nat) :
    (if L.isEmpty then y else { y with remainingData := some L }).videoTrack = y.videoTrack ∧
    (if L.isEmpty then y else { y with remainingData := some L }).audioTrack = y.audioTrack ∧
    (if L.isEmpty then y else { y with remainingData := some L }).metadataTrack = y.metadataTrack ∧
    (if L.isEmpty then y else { y with remainingData := some L }).headerParsed = y.headerParsed := by
  cases hL : L.isEmpty <;> simp

theorem rem_id (y : Demuxer) (a : Nat) (hy : y.remainingData = none) :
    ({ setTsD y a with remainingData := none } : Demuxer) = setTsD y a := by
  obtain ⟨hp0, rd, gid, nd, vt, au, mt, lg⟩ := y
  replace hy : rd = none := hy
  subst hy
  rfl

theorem rem_juggle (y : Demuxer) (a : Nat) (L : List Nat) (hy : y.remainingData = none) :
    ({ setTsD { clearTransient y with remainingData := some L } a
        with remainingData := none } : Demuxer) = setTsD (clearTransient y) a := by
  obtain ⟨hp0, rd, gid, nd, vt, au, mt, lg⟩ := y
  replace hy : rd = none := hy
  subst hy
  rfl

/-- Claim C1 (amended): chunking independence of demux.  For a fresh demuxer
(header not yet parsed, no buffered remainder) on a stream S that passes
probe, whose header advertises both audio and video, and none of whose tags
triggers a mid-stream track reset, every split of S at position 0 or at or
after the end of the header region yields two calls demux(A); demux(B) with
contiguous = true that both succeed, and whose video, audio, SEI and script
sample lists concatenate to those of the single call demux(S).  The literal
claim over every split position is refuted separately: a split strictly
inside the header region makes the first call throw even though S is valid. -/
theorem demux_chunk_split (c : Collab) (st0 : Demuxer) (S : List Nat) (p : Nat)
    (hh : st0.headerParsed = false) (hr : st0.remainingData = none)
    (hS : probe S = true)
    (hAud : byte S 4 % 8 / 4 ≠ 0) (hVid : byte S 4 % 2 ≠ 0)
    (hsplit : p = 0 ∨ readBig32 S 5 + 4 ≤ p)
    (hclean : cleanLoop c (S.drop (readBig32 S 5 + 4)) = true) :
    ∃ st1 st2 stS,
      demux c st0 (S.take p) false true = some st1 ∧
      demux c st1 (S.drop p) false true = some st2 ∧
      demux c st0 S false true = some stS ∧
      stS.videoTrack.samples = st1.videoTrack.samples ++ st2.videoTrack.samples ∧
      stS.audioTrack.samples = st1.audioTrack.samples ++ st2.audioTrack.samples ∧
      stS.metadataTrack.seiSamples
        = st1.metadataTrack.seiSamples ++ st2.metadataTrack.seiSamples ∧
      stS.metadataTrack.flvScriptSamples
        = st1.metadataTrack.flvScriptSamples ++ st2.metadataTrack.flvScriptSamples := by
  obtain ⟨hlen4, hH9⟩ := probe_pos S hS
  have hSne : S ≠ [] := by
    intro hcon
    rw [hcon] at hlen4
    simp at hlen4
  rcases hsplit with hp0 | hp13
  · -- split before any byte: the first call is a no-op
    subst hp0
    rw [List.take_zero, List.drop_zero]
    have hc2 := demux_first c (clearTransient st0) S (by exact hh) (by exact hr) hSne hS
    rw [clearTransient_idem] at hc2
    have hcS := demux_first c st0 S hh hr hSne hS
    refine ⟨clearTransient st0,
      finalizeDemux (tagLoop c (applyHeaderFlags (clearTransient st0) S)
          (S.drop (readBig32 S 5 + 4))).1
        (tagLoop c (applyHeaderFlags (clearTransient st0) S)
          (S.drop (readBig32 S 5 + 4))).2,
      finalizeDemux (tagLoop c (applyHeaderFlags (clearTransient st0) S)
          (S.drop (readBig32 S 5 + 4))).1
        (tagLoop c (applyHeaderFlags (clearTransient st0) S)
          (S.drop (readBig32 S 5 + 4))).2,
      demux_empty c st0 hr, hc2, hcS, ?_, ?_, ?_, ?_⟩
    all_goals simp [clearTransient]
  · -- split at or after the end of the header region
    have hp13' : 13 ≤ p := by omega
    have hA4 : byte (S.take p) 4 = byte S 4 := byte_take S p 4 (by omega)
    have hprobeA : probe (S.take p) = true := by rw [probe_take S p (by omega)]; exact hS
    have hAne : S.take p ≠ [] := by
      have : (S.take p).length = min p S.length := List.length_take p S
      intro hcon
      rw [hcon] at this
      simp at this
      omega
    have hHA : readBig32 (S.take p) 5 = readBig32 S 5 := readBig32_take S p 5 (by omega)
    -- the state after header parsing, common to the prefix call and the
    -- single call
    have hcall1 := demux_first c st0 (S.take p) hh hr hAne hprobeA
    rw [hHA, applyHeaderFlags_congr _ (S.take p) S hA4] at hcall1
    set stH := applyHeaderFlags (clearTransient st0) S with hstH
    set rest1 := (S.take p).drop (readBig32 S 5 + 4) with hrest1
    set X1 := tagLoop c stH rest1 with hX1
    set st1' := X1.1
    set L1 := X1.2
    -- bookkeeping facts about the header state
    have hstH_hp : stH.headerParsed = true := rfl
    have hstH_rem : stH.remainingData = none := hr
    have hstH_ap : stH.audioTrack.present = true := by
      show decide (byte S 4 % 8 / 4 ≠ 0) = true
      exact decide_eq_true hAud
    have hstH_vp : stH.videoTrack.present = true := by
      show decide (byte S 4 % 2 ≠ 0) = true
      exact decide_eq_true hVid
    have hstH_wa : stH.audioTrack.warnings = [] := rfl
    have hstH_wv : stH.videoTrack.warnings = [] := rfl
    -- the loop preserves the bookkeeping
    obtain ⟨hm1, hw1a, hw1v⟩ :=
      tagLoop_pres c rest1.length rest1 le_rfl stH hstH_wa hstH_wv
    obtain ⟨he1, he2, he3, he4⟩ := metaOf_fields _ _ hm1
    have h1hp : st1'.headerParsed = true := by rw [he1]; exact hstH_hp
    have h1rem : st1'.remainingData = none := by rw [he2]; exact hstH_rem
    have h1ap : st1'.audioTrack.present = true := by rw [he3]; exact hstH_ap
    have h1vp : st1'.videoTrack.present = true := by rw [he4]; exact hstH_vp
    -- the first call finalizes without self-healing
    rw [finalizeDemux_present _ _ h1ap h1vp] at hcall1
    set W := if L1.isEmpty then st1' else { st1' with remainingData := some L1 } with hW
    set a1 := st1'.audioTrack.sampleRate with ha1
    obtain ⟨hWv, hWa, hWm, hWh⟩ := remW_fields st1' L1
    rw [← hW] at hWv hWa hWm hWh
    -- properties of the state returned by the first call
    have hst1_hp : (setTsD W a1).headerParsed = true := by
      show W.headerParsed = true
      rw [hWh]
      exact h1hp
    have hst1_rem : (setTsD W a1).remainingData
        = (if L1.isEmpty then (none : Option (List Nat)) else some L1) := by
      show W.remainingData = _
      rw [hW]
      cases hL : L1.isEmpty
      · simp [h1rem]
      · simp [h1rem]
    -- decompose the single run along the prefix boundary
    have hrest0 : S.drop (readBig32 S 5 + 4) = rest1 ++ S.drop p := by
      rw [hrest1, drop_take_append_drop S p (readBig32 S 5 + 4) (by omega)]
    have hsingle := demux_first c st0 S hh hr hSne hS
    rw [← hstH] at hsingle
    rw [hrest0] at hsingle hclean
    rw [tagLoop_append c rest1.length rest1 le_rfl (S.drop p) stH, ← hX1] at hsingle
    -- the tags parsed by the continuation are clean
    have hclean2 : cleanLoop c (L1 ++ S.drop p) = true := by
      have := cleanLoop_append c rest1.length rest1 le_rfl (S.drop p) hclean stH
      rw [← hX1] at this
      exact this
    by_cases hD : L1 ++ S.drop p = []
    · -- nothing left for the second call: it returns no samples
      obtain ⟨hL1e, hBe⟩ := List.append_eq_nil.mp hD
      have hst1_remn : (setTsD W a1).remainingData = none := by
        rw [hst1_rem, hL1e]
        rfl
      refine ⟨setTsD W a1, clearTransient (setTsD W a1), setTsD st1' a1,
        hcall1, ?_, ?_, ?_, ?_, ?_, ?_⟩
      · rw [hBe]
        exact demux_empty c _ hst1_remn
      · rw [hD, tagLoop_stop_short c st1' [] (by simp)] at hsingle
        rw [finalizeDemux_present _ _ h1ap h1vp] at hsingle
        simpa using hsingle
      all_goals
        have hWeq : W = st1' := by rw [hW, hL1e]; rfl
        simp [clearTransient, setTsD, hWeq]
    · -- the second call continues with the buffered remainder
      have hgd : (setTsD W a1).remainingData.getD [] ++ S.drop p = L1 ++ S.drop p := by
        rw [hst1_rem, ite_isEmpty_getD]
      have hcall2 := demux_cont c (setTsD W a1) (S.drop p) hst1_hp (by rw [hgd]; exact hD)
      rw [hgd] at hcall2
      -- the continuation state of the second call is the cleared-and-
      -- timescaled version of the single-run midpoint state
      have hst1c : ({ clearTransient (setTsD W a1) with remainingData := none } : Demuxer)
          = setTsD (clearTransient st1') a1 := by
        rw [clearTransient_setTsD]
        rw [hW]
        cases hL : L1.isEmpty
        · simp only [Bool.false_eq_true, if_false]
          rw [clearTransient_setRem]
          exact rem_juggle st1' a1 L1 (by
            show (clearTransient st1').remainingData = none
            exact h1rem)
        · simp only [if_true]
          exact rem_id (clearTransient st1') a1 (by
            show (clearTransient st1').remainingData = none
            exact h1rem)
      rw [hst1c] at hcall2
      set X := clearTransient st1' with hX
      set Y := tagLoop c X (L1 ++ S.drop p) with hY
      -- rewrite the second call through the timescale equivariance
      rw [tagLoop_setTs c (L1 ++ S.drop p).length (L1 ++ S.drop p) le_rfl X a1, ← hY] at hcall2
      -- rewrite the single run through the output-prefix equivariance
      have hrestore : addOut (outsOf st1') X = st1' :=
        addOut_outsOf_clear st1' hw1a hw1v
      have haddout := tagLoop_addOut c (L1 ++ S.drop p).length (L1 ++ S.drop p)
        le_rfl hclean2 (outsOf st1') X
      rw [hrestore, ← hY] at haddout
      rw [haddout] at hsingle
      -- presence facts for the final self-healing checks
      have hXwa : X.audioTrack.warnings = [] := rfl
      have hXwv : X.videoTrack.warnings = [] := rfl
      obtain ⟨hm2, hw2a, hw2v⟩ :=
        tagLoop_pres c (L1 ++ S.drop p).length (L1 ++ S.drop p) le_rfl X hXwa hXwv
      obtain ⟨hf1, hf2, hf3, hf4⟩ := metaOf_fields _ _ hm2
      have hYap : Y.1.audioTrack.present = true := by rw [← hY] at hf3; rw [hf3]; exact h1ap
      have hYvp : Y.1.videoTrack.present = true := by rw [← hY] at hf4; rw [hf4]; exact h1vp
      -- finalize both runs
      dsimp only at hcall2 hsingle
      rw [finalizeDemux_present _ _
            (show (setTsD Y.1 a1).audioTrack.present = true from hYap)
            (show (setTsD Y.1 a1).videoTrack.present = true from hYvp)] at hcall2
      rw [finalizeDemux_present _ _
            (show (addOut (outsOf st1') Y.1).audioTrack.present = true from hYap)
            (show (addOut (outsOf st1') Y.1).videoTrack.present = true from hYvp)] at hsingle
      refine ⟨_, _, _, hcall1, hcall2, hsingle, ?_, ?_, ?_, ?_⟩
      all_goals
        cases hYe : Y.2.isEmpty
        · simp only [hYe, Bool.false_eq_true, if_false]
          simp [setTsD, addOut, outsOf, hWv, hWa, hWm]
        · simp only [hYe, if_true]
          simp [setTsD, addOut, outsOf, hWv, hWa, hWm]

/-! ### GOP counter behaviour -/

/-- The GOP invariant: the gopId values of the buffered video samples are
non-decreasing in append order and bounded by the shared counter. -/
def gopInv (st : Demuxer) : Prop :=
  List.Pairwise (· ≤ ·) (st.videoTrack.samples.map VideoSample.gopId) ∧
  ∀ s ∈ st.videoTrack.samples, s.gopId ≤ st.gopId

theorem gopInv_nil (st : Demuxer) (h : st.videoTrack.samples = []) : gopInv st := by
  constructor
  · rw [h]
    exact List.Pairwise.nil
  · intro s hs
    rw [h] at hs
    exact absurd hs (List.not_mem_nil s)

/-- _parseVideo either appends no sample (leaving the counter untouched, with
the sample list unchanged or reset to empty), or appends exactly one sample;
an appended keyframe sample bumps the shared counter by one and the sample
receives the new counter value, a non-keyframe sample receives the counter
unchanged. -/
theorem _parseVideo_gop (c : Collab) (st : Demuxer) (data : List Nat) (dts : Nat) :
    ((_parseVideo c st data dts).gopId = st.gopId ∧
      ((_parseVideo c st data dts).videoTrack.samples = st.videoTrack.samples ∨
       (_parseVideo c st data dts).videoTrack.samples = [])) ∨
    (∃ s, (_parseVideo c st data dts).videoTrack.samples = st.videoTrack.samples ++ [s] ∧
      (_parseVideo c st data dts).gopId = (if s.keyframe then st.gopId + 1 else st.gopId) ∧
      s.gopId = (_parseVideo c st data dts).gopId) := by
  obtain ⟨hp, rd, gid, nd, vt, au, mt, lg⟩ := st
  obtain ⟨vp, vts, vfts, vsmp, vw, vct, vcdc, vwd, vht, vsr, vfn, vfd, vsps, vpps, vvps, vnus, vhv⟩ := vt
  unfold _parseVideo
  by_cases h6 : data.length < 6
  · left
    simp [h6]
  · simp only [h6, if_false]
    by_cases hcodec : byte data 0 % 16 ≠ 7 ∧ byte data 0 % 16 ≠ 12
    · left
      simp [hcodec, VideoTrack.reset]
    · simp only [if_neg hcodec]
      by_cases hp0 : byte data 1 = 0
      · left
        simp only [hp0, if_pos rfl, if_true]
        cases hr : (if (byte data 0 % 16 == 12) then c.parseHevcDcr (data.drop 5)
                    else c.parseAvcDcr (data.drop 5)) with
        | some r =>
          constructor
          · rfl
          · left
            rw [show (applyDcr ⟨vp, vts, vfts, vsmp, vw,
                (if (byte data 0 % 16 == 12) then VideoCodecType.hevc else .avc),
                vcdc, vwd, vht, vsr, vfn, vfd, vsps, vpps, vvps, vnus, vhv⟩ r).samples
                = vsmp from by rw [applyDcr_mk]]
        | none => simp
      · simp only [hp0, if_false]
        by_cases hp1 : byte data 1 = 1
        · simp only [hp1, if_pos rfl, if_true]
          split <;>
          · split
            · right
              refine ⟨_, rfl, ?_, rfl⟩
              split <;> rfl
            · left
              simp
        · left
          simp only [hp1, if_false]
          by_cases hp2 : byte data 1 = 2
          · simp [hp2]
          · simp [hp2]

theorem _parseAudio_gv (c : Collab) (st : Demuxer) (data : List Nat) (pts : Option Nat) :
    (_parseAudio c st data pts).gopId = st.gopId ∧
    (_parseAudio c st data pts).videoTrack = st.videoTrack := by
  obtain ⟨hp, rd, gid, nd, vt, au, mt, lg⟩ := st
  unfold _parseAudio _parseAac _parseG711 AudioTrack.reset
  repeat' split
  all_goals simp [apply_ite Demuxer.gopId, apply_ite Demuxer.videoTrack, ite_self]

theorem _parseScript_gv (c : Collab) (st : Demuxer) (data : List Nat) (pts : Nat) :
    (_parseScript c st data pts).gopId = st.gopId ∧
    (_parseScript c st data pts).videoTrack = st.videoTrack := by
  simp [_parseScript]

/-- handleTag-level version of the GOP dichotomy. -/
theorem handleTag_gop (c : Collab) (st : Demuxer) (rest : List Nat) (ds : Nat) :
    ((handleTag c st rest ds).gopId = st.gopId ∧
      ((handleTag c st rest ds).videoTrack.samples = st.videoTrack.samples ∨
       (handleTag c st rest ds).videoTrack.samples = [])) ∨
    (∃ s, (handleTag c st rest ds).videoTrack.samples = st.videoTrack.samples ++ [s] ∧
      (handleTag c st rest ds).gopId = (if s.keyframe then st.gopId + 1 else st.gopId) ∧
      s.gopId = (handleTag c st rest ds).gopId) := by
  unfold handleTag
  have wrap : ∀ st2 : Demuxer,
      (if readBig32 rest (11 + ds) ≠ 11 + ds then
        { st2 with log := st2.log ++ [.invalidPrevTagSize (readBig32 rest (11 + ds)) (11 + ds)] }
      else st2).gopId = st2.gopId ∧
      (if readBig32 rest (11 + ds) ≠ 11 + ds then
        { st2 with log := st2.log ++ [.invalidPrevTagSize (readBig32 rest (11 + ds)) (11 + ds)] }
      else st2).videoTrack = st2.videoTrack := by
    intro st2
    split <;> simp
  by_cases h8 : byte rest 0 = 8
  · left
    simp only [h8, if_pos rfl, if_true]
    obtain ⟨w1, w2⟩ := wrap (_parseAudio c st ((rest.drop 11).take ds)
      (some (tsOf (byte rest 4) (byte rest 5) (byte rest 6) (byte rest 7))))
    obtain ⟨g1, g2⟩ := _parseAudio_gv c st ((rest.drop 11).take ds)
      (some (tsOf (byte rest 4) (byte rest 5) (byte rest 6) (byte rest 7)))
    rw [w1, w2, g1, g2]
    exact ⟨rfl, Or.inl rfl⟩
  · simp only [h8, if_false]
    by_cases h9 : byte rest 0 = 9
    · simp only [h9, if_pos rfl, if_true]
      obtain ⟨w1, w2⟩ := wrap (_parseVideo c st ((rest.drop 11).take ds)
        (tsOf (byte rest 4) (byte rest 5) (byte rest 6) (byte rest 7)))
      rcases _parseVideo_gop c st ((rest.drop 11).take ds)
        (tsOf (byte rest 4) (byte rest 5) (byte rest 6) (byte rest 7)) with ⟨g1, g2⟩ | ⟨s, e1, e2, e3⟩
      · left
        rw [w1, w2, g1]
        exact ⟨rfl, g2⟩
      · right
        exact ⟨s, by rw [w2]; exact e1, by rw [w1]; exact e2, by rw [w1]; exact e3⟩
    · simp only [h9, if_false]
      by_cases h18 : byte rest 0 = 18
      · left
        simp only [h18, if_pos rfl, if_true]
        obtain ⟨w1, w2⟩ := wrap (_parseScript c st ((rest.drop 11).take ds)
          (tsOf (byte rest 4) (byte rest 5) (byte rest 6) (byte rest 7)))
        obtain ⟨g1, g2⟩ := _parseScript_gv c st ((rest.drop 11).take ds)
          (tsOf (byte rest 4) (byte rest 5) (byte rest 6) (byte rest 7))
        rw [w1, w2, g1, g2]
        exact ⟨rfl, Or.inl rfl⟩
      · left
        simp only [h18, if_false]
        obtain ⟨w1, w2⟩ := wrap { st with log := st.log ++ [.invalidTagType (byte rest 0)] }
        rw [w1, w2]
        exact ⟨rfl, Or.inl rfl⟩

/-- A tag dispatch preserves the GOP invariant and never decreases the
counter. -/
theorem handleTag_gopInv (c : Collab) (st : Demuxer) (rest : List Nat) (ds : Nat)
    (h : gopInv st) :
    gopInv (handleTag c st rest ds) ∧ st.gopId ≤ (handleTag c st rest ds).gopId := by
  rcases handleTag_gop c st rest ds with ⟨g1, g2 | g2⟩ | ⟨s, e1, e2, e3⟩
  · exact ⟨⟨by rw [g2]; exact h.1, fun s hs => by rw [g1]; exact h.2 s (g2 ▸ hs)⟩, by rw [g1]⟩
  · exact ⟨gopInv_nil _ g2, by rw [g1]⟩
  · constructor
    · constructor
      · rw [e1, List.map_append, List.pairwise_append]
        refine ⟨h.1, by simp, ?_⟩
        intro a ha b hb
        simp only [List.map_cons, List.map_nil, List.mem_singleton] at hb
        subst hb
        simp only [List.mem_map] at ha
        obtain ⟨t, ht, rfl⟩ := ha
        have hta := h.2 t ht
        rw [e3, e2]
        split
        · exact le_trans hta (Nat.le_succ _)
        · exact hta
      · intro t ht
        rw [e1] at ht
        rcases List.mem_append.mp ht with hl | hr
        · have hta := h.2 t hl
          rw [e2]
          split
          · exact le_trans hta (Nat.le_succ _)
          · exact hta
        · simp only [List.mem_singleton] at hr
          subst hr
          exact le_of_eq e3
    · rw [e2]
      split
      · exact Nat.le_succ _
      · exact le_rfl

theorem tagLoop_gopInv (c : Collab) :
    ∀ n (rest : List Nat), rest.length ≤ n → ∀ st, gopInv st →
      gopInv (tagLoop c st rest).1 ∧ st.gopId ≤ (tagLoop c st rest).1.gopId := by
  intro n
  induction n with
  | zero =>
    intro rest hn st h
    rw [tagLoop_stop_short c st rest (by omega)]
    exact ⟨h, le_rfl⟩
  | succ n ih =>
    intro rest hn st h
    by_cases h1 : 15 < rest.length
    · by_cases h2 : 15 + dsOf rest ≤ rest.length
      · rw [tagLoop_step c st rest h1 h2]
        obtain ⟨k1, k2⟩ := handleTag_gopInv c st rest (dsOf rest) h
        obtain ⟨m1, m2⟩ := ih (rest.drop (15 + dsOf rest)) (by simp; omega) _ k1
        exact ⟨m1, le_trans k2 m2⟩
      · rw [tagLoop_stop_break c st rest h1 (by omega)]
        exact ⟨h, le_rfl⟩
    · rw [tagLoop_stop_short c st rest (by omega)]
      exact ⟨h, le_rfl⟩

theorem finalizeDemux_facts (st : Demuxer) (L : List Nat) :
    (finalizeDemux st L).gopId = st.gopId ∧
    ((finalizeDemux st L).videoTrack.samples = st.videoTrack.samples ∨
     (finalizeDemux st L).videoTrack.samples = []) ∧
    ((finalizeDemux st L).audioTrack.present = false →
      (finalizeDemux st L).audioTrack.samples = []) ∧
    ((finalizeDemux st L).videoTrack.present = false →
      (finalizeDemux st L).videoTrack.samples = []) := by
  obtain ⟨hp, rd, gid, nd, vt, au, mt, lg⟩ := st
  obtain ⟨vp, vts, vfts, vsmp, vw, vct, vcdc, vwd, vht, vsr, vfn, vfd, vsps, vpps, vvps, vnus, vhv⟩ := vt
  obtain ⟨ap, ats, afts, asmp, aw, act, acdc, asr, asz, acc, acf, aot, asri⟩ := au
  unfold finalizeDemux AudioTrack.exist VideoTrack.exist AudioTrack.hasSample
    VideoTrack.hasSample AudioTrack.reset VideoTrack.reset
  cases ap <;> cases vp <;> cases hL : L.isEmpty <;> cases hva : vsmp.isEmpty <;>
    cases haa : asmp.isEmpty <;>
    simp_all [List.isEmpty_iff]

/-! ### Case analysis of a successful demux call -/

/-- Every successful demux call either returns a state with no transient
samples, or runs the tag loop from a state whose transient output was just
cleared and whose counter is the caller's, and finalizes its result. -/
theorem demux_result_cases (c : Collab) (st0 : Demuxer) (data : List Nat)
    (d ct : Bool) (st' : Demuxer) (h : demux c st0 data d ct = some st') :
    (st'.videoTrack.samples = [] ∧ st'.audioTrack.samples = [] ∧ st'.gopId = st0.gopId) ∨
    (∃ stp : Demuxer, ∃ rest : List Nat,
      st' = finalizeDemux (tagLoop c stp rest).1 (tagLoop c stp rest).2 ∧
      stp.videoTrack.samples = [] ∧ stp.audioTrack.samples = [] ∧ stp.gopId = st0.gopId) := by
  obtain ⟨hp, rd, gid, nd, vt, au, mt, lg⟩ := st0
  unfold demux resetAllTracks clearTransient applyHeaderFlags at h
  cases d <;> cases ct <;> cases hp <;> cases rd <;>
    simp only [Bool.or_false, Bool.or_true, Bool.not_true, Bool.not_false,
      Bool.false_eq_true, Bool.true_eq_false, if_true, if_false] at h <;>
    repeat' split at h
  all_goals try contradiction
  all_goals cases h
  all_goals try (left; exact ⟨rfl, rfl, rfl⟩)
  all_goals try (right; exact ⟨_, _, rfl, rfl, rfl, rfl⟩)
  all_goals (rename_i sth off heq
             split at heq <;> cases heq
             right
             exact ⟨_, _, rfl, rfl, rfl, rfl⟩)

/-- finalizeDemux leaves both presence flags alone. -/
theorem finalizeDemux_presEq (st : Demuxer) (L : List Nat) :
    (finalizeDemux st L).audioTrack.present = st.audioTrack.present ∧
    (finalizeDemux st L).videoTrack.present = st.videoTrack.present := by
  obtain ⟨hp, rd, gid, nd, vt, au, mt, lg⟩ := st
  obtain ⟨vp, vts, vfts, vsmp, vw, vct, vcdc, vwd, vht, vsr, vfn, vfd, vsps, vpps, vvps, vnus, vhv⟩ := vt
  obtain ⟨ap, ats, afts, asmp, aw, act, acdc, asr, asz, acc, acf, aot, asri⟩ := au
  unfold finalizeDemux AudioTrack.exist VideoTrack.exist AudioTrack.hasSample
    VideoTrack.hasSample AudioTrack.reset VideoTrack.reset
  cases ap <;> cases vp <;> cases hL : L.isEmpty <;> cases hva : vsmp.isEmpty <;>
    cases haa : asmp.isEmpty <;>
    simp_all [List.isEmpty_iff]

/-- A successful demux call returns gopIds that are pairwise monotone along
the returned sample list, bounded by the returned counter, and the counter
never decreases across the call. -/
theorem demux_gop (c : Collab) (st0 : Demuxer) (data : List Nat) (d ct : Bool)
    (st' : Demuxer) (h : demux c st0 data d ct = some st') :
    gopInv st' ∧ st0.gopId ≤ st'.gopId := by
  rcases demux_result_cases c st0 data d ct st' h with ⟨hv, -, hg⟩ | ⟨stp, rest, he, hv, -, hg⟩
  · exact ⟨gopInv_nil st' hv, le_of_eq hg.symm⟩
  · obtain ⟨gi, gle⟩ := tagLoop_gopInv c rest.length rest le_rfl stp (gopInv_nil stp hv)
    obtain ⟨f1, f2, -, -⟩ := finalizeDemux_facts (tagLoop c stp rest).1 (tagLoop c stp rest).2
    subst he
    constructor
    · rcases f2 with f2 | f2
      · refine ⟨?_, ?_⟩
        · rw [f2]
          exact gi.1
        · intro s hs
          rw [f2] at hs
          rw [f1]
          exact gi.2 s hs
      · exact gopInv_nil _ f2
    · rw [f1]
      omega

/-- Sample-level dichotomy of _parseVideo: either the sample list is
unchanged or reset, or exactly one sample is appended, and that sample
carries pts = dts + cts, the tag dts, and the updated counter as gopId. -/
theorem _parseVideo_sample (c : Collab) (st : Demuxer) (data : List Nat) (dts : Nat) :
    ((_parseVideo c st data dts).videoTrack.samples = st.videoTrack.samples ∨
     (_parseVideo c st data dts).videoTrack.samples = []) ∨
    (∃ s, (_parseVideo c st data dts).videoTrack.samples = st.videoTrack.samples ++ [s] ∧
      s.pts = (dts : Int) + ctsOf (byte data 2) (byte data 3) (byte data 4) ∧
      s.dts = dts ∧
      (_parseVideo c st data dts).gopId = (if s.keyframe then st.gopId + 1 else st.gopId) ∧
      s.gopId = (_parseVideo c st data dts).gopId) := by
  obtain ⟨hp, rd, gid, nd, vt, au, mt, lg⟩ := st
  obtain ⟨vp, vts, vfts, vsmp, vw, vct, vcdc, vwd, vht, vsr, vfn, vfd, vsps, vpps, vvps, vnus, vhv⟩ := vt
  unfold _parseVideo
  by_cases h6 : data.length < 6
  · left
    simp [h6]
  · simp only [h6, if_false]
    by_cases hcodec : byte data 0 % 16 ≠ 7 ∧ byte data 0 % 16 ≠ 12
    · left
      simp [hcodec, VideoTrack.reset]
    · simp only [if_neg hcodec]
      by_cases hp0 : byte data 1 = 0
      · left
        simp only [hp0, if_pos rfl, if_true]
        cases hr2 : (if (byte data 0 % 16 == 12) then c.parseHevcDcr (data.drop 5)
                    else c.parseAvcDcr (data.drop 5)) with
        | some r =>
          left
          rw [show (applyDcr ⟨vp, vts, vfts, vsmp, vw,
              (if (byte data 0 % 16 == 12) then VideoCodecType.hevc else .avc),
              vcdc, vwd, vht, vsr, vfn, vfd, vsps, vpps, vvps, vnus, vhv⟩ r).samples
              = vsmp from by rw [applyDcr_mk]]
        | none => simp
      · simp only [hp0, if_false]
        by_cases hp1 : byte data 1 = 1
        · simp only [hp1, if_pos rfl, if_true]
          split <;>
          · split
            · right
              refine ⟨_, rfl, rfl, rfl, ?_, rfl⟩
              split <;> rfl
            · left
              simp
        · left
          simp only [hp1, if_false]
          by_cases hp2 : byte data 1 = 2
          · simp [hp2]
          · simp [hp2]

/-- When _parseVideo did append a sample, that sample satisfies the pts, dts
and gopId equations of the appending branch. -/
theorem _parseVideo_append_facts (c : Collab) (st : Demuxer) (data : List Nat)
    (dts : Nat) (s : VideoSample)
    (h : (_parseVideo c st data dts).videoTrack.samples = st.videoTrack.samples ++ [s]) :
    s.pts = (dts : Int) + ctsOf (byte data 2) (byte data 3) (byte data 4) ∧
    s.dts = dts ∧
    (_parseVideo c st data dts).gopId = (if s.keyframe then st.gopId + 1 else st.gopId) ∧
    s.gopId = (_parseVideo c st data dts).gopId := by
  rcases _parseVideo_sample c st data dts with (he | he) | ⟨t, e1, e2, e3, e4, e5⟩
  · rw [he] at h
    exact absurd h (by simp)
  · rw [he] at h
    exact absurd h.symm (by simp)
  · rw [e1] at h
    have hts : t = s := by
      have h2 := List.append_cancel_left h
      simpa using h2
    subst hts
    exact ⟨e2, e3, e4, e5⟩

/-! ## Concrete streams and states used by counterexamples and witnesses -/

/-- A minimal valid FLV stream: the 9-byte header with flags 5 (audio and
video advertised), followed by the zero previous-tag-size word. -/
def S1 : List Nat := [0x46, 0x4C, 0x56, 0x01, 0x05, 0, 0, 0, 9, 0, 0, 0, 0]

/-- S1 followed by one complete AVC NALU video tag: tag header (type 9,
dataSize 6, timestamp 0), a 6-byte body (keyframe, codecId 7, packetType 1,
cts field 5, one 1-byte NAL unit), and the trailing previous-tag-size 17. -/
def SV : List Nat :=
  S1 ++ [9, 0, 0, 6, 0, 0, 0, 0, 0, 0, 0] ++ [0x17, 1, 0, 0, 5, 9] ++ [0, 0, 0, 17]

/-- S1 followed by a dataSize-0 audio tag whose trailing previous-tag-size
word ends exactly at the last byte of the buffer. -/
def S7 : List Nat := S1 ++ [8, 0, 0, 0, 0, 0, 0, 0, 0, 0, 0] ++ [0, 0, 0, 11]

/-- A stream whose header flags byte is 0 (neither track advertised) followed
by one complete G.711 audio tag, whose body would append an audio sample. -/
def S8 : List Nat :=
  [0x46, 0x4C, 0x56, 0x01, 0x00, 0, 0, 0, 9, 0, 0, 0, 0] ++
  [8, 0, 0, 2, 0, 0, 0, 0, 0, 0, 0] ++ [0x70, 0xAB] ++ [0, 0, 0, 13]

/-- A video track holding one parameter set of each kind. -/
def trackC2 : VideoTrack :=
  { initVideoTrack with vps := [[64]], sps := [[66]], pps := [[68]] }

/-- The demuxer state after a single demux call on SV. -/
def stSV : Demuxer := (demux collabW initDemuxer SV false true).getD initDemuxer

/-- The demuxer state after a single demux call on S7. -/
def stS7 : Demuxer := (demux collabW initDemuxer S7 false true).getD initDemuxer

/-- The demuxer state after a single demux call on S8. -/
def stS8 : Demuxer := (demux collabW initDemuxer S8 false true).getD initDemuxer

/-! ## The claims -/

/-- Claim C1, counterexample to the literal statement: SV is a valid stream
(the single call succeeds), yet with the split S = A ++ B at position 4 -
inside the 9-byte FLV header - the first call demux(A) throws. -/
theorem chunking_throws_in_header :
    (∃ st, demux collabW initDemuxer SV false true = some st) ∧
    demux collabW initDemuxer (SV.take 4) false true = none :=
  ⟨⟨stSV, by decide⟩, by decide⟩

/-- Witness for C1: the amended chunking theorem applied to the concrete
stream SV split at position 20, inside the video tag body. -/
theorem chunk_split_witness :
    ∃ st1 st2 stS,
      demux collabW initDemuxer (SV.take 20) false true = some st1 ∧
      demux collabW st1 (SV.drop 20) false true = some st2 ∧
      demux collabW initDemuxer SV false true = some stS ∧
      stS.videoTrack.samples = st1.videoTrack.samples ++ st2.videoTrack.samples ∧
      stS.audioTrack.samples = st1.audioTrack.samples ++ st2.audioTrack.samples ∧
      stS.metadataTrack.seiSamples
        = st1.metadataTrack.seiSamples ++ st2.metadataTrack.seiSamples ∧
      stS.metadataTrack.flvScriptSamples
        = st1.metadataTrack.flvScriptSamples ++ st2.metadataTrack.flvScriptSamples :=
  demux_chunk_split collabW initDemuxer SV 20 rfl rfl (by decide) (by decide) (by decide)
    (Or.inr (by decide)) (by decide)

/-- Claim C2, counterexample to the literal statement: after the insertion
branch fires (HEVC, latch set, no VPS NAL among the units), the returned
latch is still true, so an identical following tag receives the parameter-set
insertion again instead of being left alone. -/
theorem latch_not_cleared_counterexample :
    (_checkAddMetaNalToUnits true [[2]] trackC2 true).2 = true ∧
    (_checkAddMetaNalToUnits true [[2]] trackC2
        (_checkAddMetaNalToUnits true [[2]] trackC2 true).2).1
      = [[64], [66], [68], [2]] := by
  decide

/-- Claim C2 (amended): the insertion branch of _checkAddMetaNalToUnits
returns the latch unchanged (true), so a following VPS-free HEVC NALU tag
receives the vps[0]/sps[0]/pps[0] insertion again; the latch is returned
false exactly in the other branches - for AVC, when it was already false,
and when the unit list contains a VPS (type 32) NAL. -/
theorem latch_persistence (units : List (List Nat)) (track : VideoTrack)
    (hno : (units.map fun x => byte x 0 / 2 % 64).contains 32 = false) :
    (_checkAddMetaNalToUnits true units track true).2 = true ∧
    (_checkAddMetaNalToUnits true units track
        (_checkAddMetaNalToUnits true units track true).2).1
      = ([track.vps.head?, track.sps.head?, track.pps.head?].filterMap id) ++ units ∧
    (∀ n : Bool, (_checkAddMetaNalToUnits false units track n).2 = false) ∧
    (_checkAddMetaNalToUnits true units track false).2 = false ∧
    ∀ units2 : List (List Nat),
      (units2.map fun x => byte x 0 / 2 % 64).contains 32 = true →
      (_checkAddMetaNalToUnits true units2 track true).2 = false := by
  have hno2 : ¬ ((units.map fun x => byte x 0 / 2 % 64).contains 32 = true) := by
    rw [hno]
    decide
  have h2 : (_checkAddMetaNalToUnits true units track true).2 = true := by
    simp only [_checkAddMetaNalToUnits]
    rw [if_neg (by decide), if_neg hno2]
  refine ⟨h2, ?_, ?_, ?_, ?_⟩
  · rw [h2]
    simp only [_checkAddMetaNalToUnits]
    rw [if_neg (by decide), if_neg hno2]
  · intro n
    simp only [_checkAddMetaNalToUnits]
    rw [if_pos (by simp)]
  · simp only [_checkAddMetaNalToUnits]
    rw [if_pos (by decide)]
  · intro units2 h32
    simp only [_checkAddMetaNalToUnits]
    rw [if_neg (by decide), if_pos h32]

/-- Witness for C2: the latch persistence theorem at a concrete VPS-free
unit list and a track holding all three parameter sets. -/
theorem latch_persistence_witness :
    ((([[2]] : List (List Nat)).map fun x => byte x 0 / 2 % 64).contains 32 = false) ∧
    ((_checkAddMetaNalToUnits true [[2]] trackC2 true).2 = true ∧
     (_checkAddMetaNalToUnits true [[2]] trackC2
         (_checkAddMetaNalToUnits true [[2]] trackC2 true).2).1
       = ([trackC2.vps.head?, trackC2.sps.head?, trackC2.pps.head?].filterMap id) ++ [[2]] ∧
     (∀ n : Bool, (_checkAddMetaNalToUnits false [[2]] trackC2 n).2 = false) ∧
     (_checkAddMetaNalToUnits true [[2]] trackC2 false).2 = false ∧
     ∀ units2 : List (List Nat),
       (units2.map fun x => byte x 0 / 2 % 64).contains 32 = true →
       (_checkAddMetaNalToUnits true units2 trackC2 true).2 = false) :=
  ⟨by decide, latch_persistence [[2]] trackC2 (by decide)⟩

/-- Claim C3: while the latch is set and the HEVC unit list carries no
type-32 (VPS) NAL, the unit list used for the sample is vps[0], sps[0],
pps[0] - any absent entry dropped by the filter - followed by the original
units in order; for AVC the unit list is returned unchanged. -/
theorem insertion_content (units : List (List Nat)) (track : VideoTrack) (need : Bool)
    (hneed : need = true)
    (hno : (units.map fun x => byte x 0 / 2 % 64).contains 32 = false)
    (avcUnits : List (List Nat)) (t2 : VideoTrack) (n2 : Bool) :
    (_checkAddMetaNalToUnits true units track need).1
      = ([track.vps.head?, track.sps.head?, track.pps.head?].filterMap id) ++ units ∧
    (_checkAddMetaNalToUnits false avcUnits t2 n2).1 = avcUnits := by
  subst hneed
  have hno2 : ¬ ((units.map fun x => byte x 0 / 2 % 64).contains 32 = true) := by
    rw [hno]
    decide
  constructor
  · simp only [_checkAddMetaNalToUnits]
    rw [if_neg (by decide), if_neg hno2]
  · simp only [_checkAddMetaNalToUnits]
    rw [if_pos (by simp)]

/-- Witness for C3: the insertion content theorem at a concrete VPS-free
unit list, a fully populated track, and a concrete AVC call. -/
theorem insertion_content_witness :
    ((([[2]] : List (List Nat)).map fun x => byte x 0 / 2 % 64).contains 32 = false) ∧
    ((_checkAddMetaNalToUnits true [[2]] trackC2 true).1
       = ([trackC2.vps.head?, trackC2.sps.head?, trackC2.pps.head?].filterMap id) ++ [[2]] ∧
     (_checkAddMetaNalToUnits false [[7]] initVideoTrack false).1 = [[7]]) :=
  ⟨by decide, insertion_content [[2]] trackC2 true rfl (by decide) [[7]] initVideoTrack false⟩

/-- Claim C4: across any successful demux call, the gopIds of the returned
video samples are monotone non-decreasing in append order and bounded by the
returned shared counter, and the counter never decreases across the call (so
the order extends across successive calls); per appended sample, the counter
is incremented exactly when the sample's keyframe flag is set, and the sample
receives the resulting counter value (the current value unchanged for a
non-keyframe). -/
theorem gop_monotone_per_keyframe (c : Collab) (st0 : Demuxer) (data : List Nat)
    (d ct : Bool) (st' : Demuxer) (h : demux c st0 data d ct = some st') :
    (List.Pairwise (· ≤ ·) (st'.videoTrack.samples.map VideoSample.gopId) ∧
     (∀ s ∈ st'.videoTrack.samples, s.gopId ≤ st'.gopId) ∧
     st0.gopId ≤ st'.gopId) ∧
    ∀ (st : Demuxer) (body : List Nat) (dts : Nat) (s : VideoSample),
      (_parseVideo c st body dts).videoTrack.samples = st.videoTrack.samples ++ [s] →
      ((_parseVideo c st body dts).gopId = (if s.keyframe then st.gopId + 1 else st.gopId) ∧
       s.gopId = (if s.keyframe then st.gopId + 1 else st.gopId)) := by
  obtain ⟨gi, gle⟩ := demux_gop c st0 data d ct st' h
  refine ⟨⟨gi.1, gi.2, gle⟩, ?_⟩
  intro st body dts s hap
  obtain ⟨-, -, e4, e5⟩ := _parseVideo_append_facts c st body dts s hap
  exact ⟨e4, by rw [e5, e4]⟩

/-- Witness for C4: the GOP theorem at the concrete stream SV, whose single
keyframe sample receives gopId 1 from the counter starting at 0. -/
theorem gop_monotone_witness :
    (List.Pairwise (· ≤ ·) (stSV.videoTrack.samples.map VideoSample.gopId) ∧
     (∀ s ∈ stSV.videoTrack.samples, s.gopId ≤ stSV.gopId) ∧
     initDemuxer.gopId ≤ stSV.gopId) ∧
    ∀ (st : Demuxer) (body : List Nat) (dts : Nat) (s : VideoSample),
      (_parseVideo collabW st body dts).videoTrack.samples = st.videoTrack.samples ++ [s] →
      ((_parseVideo collabW st body dts).gopId = (if s.keyframe then st.gopId + 1 else st.gopId) ∧
       s.gopId = (if s.keyframe then st.gopId + 1 else st.gopId)) :=
  gop_monotone_per_keyframe collabW initDemuxer SV false true stSV (by decide)

/-- Claim C5: the 32-bit timestamp assembled by the tag loop (tsOf, from the
extension byte b7 and the 24-bit big-endian low part b4 b5 b6) equals
timestampExt * 2^24 + low with no sign extension; for b7 at least 0x80 it is
at least 2^31, and it is always below 2^32. -/
theorem timestamp_reconstruction (b4 b5 b6 b7 : Nat)
    (h4 : b4 < 256) (h5 : b5 < 256) (h6 : b6 < 256) (h7 : b7 < 256) :
    tsOf b4 b5 b6 b7 = b7 * 16777216 + (b4 * 65536 + b5 * 256 + b6) ∧
    (128 ≤ b7 → 2147483648 ≤ tsOf b4 b5 b6 b7) ∧
    tsOf b4 b5 b6 b7 < 4294967296 := by
  unfold tsOf
  have hmod : b7 * 16777216 % 4294967296 = b7 * 16777216 :=
    Nat.mod_eq_of_lt (by omega)
  rw [hmod]
  omega

/-- Witness for C5: the timestamp theorem at bytes 1 2 3 with extension byte
200 (at least 0x80). -/
theorem timestamp_reconstruction_witness :
    ((200 : Nat) < 256) ∧
    (tsOf 1 2 3 200 = 200 * 16777216 + (1 * 65536 + 2 * 256 + 3) ∧
     (128 ≤ 200 → 2147483648 ≤ tsOf 1 2 3 200) ∧
     tsOf 1 2 3 200 < 4294967296) :=
  ⟨by decide,
   timestamp_reconstruction 1 2 3 200 (by decide) (by decide) (by decide) (by decide)⟩

/-- Claim C6: the composition offset ctsOf is the signed two's-complement
interpretation of the 24-bit big-endian field (value minus 2^24 when the top
bit is set), the field 0xFFFFFE decodes to -2, and every video sample
appended by _parseVideo satisfies pts = dts + cts with cts decoded from the
body bytes 2..4. -/
theorem cts_sign_extension (b2 b3 b4 : Nat) (h2 : b2 < 256) (h3 : b3 < 256) (h4 : b4 < 256) :
    ctsOf b2 b3 b4 =
      (if b2 * 65536 + b3 * 256 + b4 < 8388608
       then ((b2 * 65536 + b3 * 256 + b4 : Nat) : Int)
       else ((b2 * 65536 + b3 * 256 + b4 : Nat) : Int) - 16777216) ∧
    ctsOf 255 255 254 = -2 ∧
    ∀ (c : Collab) (st : Demuxer) (body : List Nat) (dts : Nat) (s : VideoSample),
      (_parseVideo c st body dts).videoTrack.samples = st.videoTrack.samples ++ [s] →
      s.pts = (s.dts : Int) + ctsOf (byte body 2) (byte body 3) (byte body 4) := by
  refine ⟨?_, by decide, ?_⟩
  · unfold ctsOf toInt32
    have hm : (b2 * 65536 + b3 * 256 + b4) * 256 % 4294967296
        = (b2 * 65536 + b3 * 256 + b4) * 256 :=
      Nat.mod_eq_of_lt (by omega)
    rw [hm]
    by_cases hlt : b2 * 65536 + b3 * 256 + b4 < 8388608
    · rw [if_pos (by omega), if_pos hlt]
      push_cast
      rw [Int.mul_fdiv_cancel _ (by norm_num)]
    · rw [if_neg (by omega), if_neg hlt]
      push_cast
      rw [show ((b2 : Int) * 65536 + (b3 : Int) * 256 + (b4 : Int)) * 256 - 4294967296
            = ((b2 : Int) * 65536 + (b3 : Int) * 256 + (b4 : Int) - 16777216) * 256 by ring]
      rw [Int.mul_fdiv_cancel _ (by norm_num)]
  · intro c st body dts s hap
    obtain ⟨e1, e2, -, -⟩ := _parseVideo_append_facts c st body dts s hap
    rw [e2]
    exact e1

/-- Witness for C6: the composition-offset theorem at the field bytes
0xFF 0xFF 0xFE, whose decoded value is -2. -/
theorem cts_sign_extension_witness :
    ((255 : Nat) < 256) ∧
    (ctsOf 255 255 254 =
       (if 255 * 65536 + 255 * 256 + 254 < 8388608
        then ((255 * 65536 + 255 * 256 + 254 : Nat) : Int)
        else ((255 * 65536 + 255 * 256 + 254 : Nat) : Int) - 16777216) ∧
     ctsOf 255 255 254 = -2 ∧
     ∀ (c : Collab) (st : Demuxer) (body : List Nat) (dts : Nat) (s : VideoSample),
       (_parseVideo c st body dts).videoTrack.samples = st.videoTrack.samples ++ [s] →
       s.pts = (s.dts : Int) + ctsOf (byte body 2) (byte body 3) (byte body 4)) :=
  ⟨by decide, cts_sign_extension 255 255 254 (by decide) (by decide) (by decide)⟩

/-- Claim C7, counterexample to the literal statement: in S7 the dataSize-0
tag satisfies cursor + 15 = len(data) and cursor + 11 + dataSize + 4 =
len(data) - the tag is complete and its trailing previous-tag-size field
ends exactly at the last buffer byte - yet the strict loop guard defers the
whole tag into remainingData instead of dispatching it in this call. -/
theorem exact_fit_tag_deferred :
    (S7.drop 13).length = 15 ∧ dsOf (S7.drop 13) = 0 ∧
    demux collabW initDemuxer S7 false true = some stS7 ∧
    stS7.remainingData = some (S7.drop 13) ∧
    stS7.audioTrack.samples = [] := by
  refine ⟨by decide, by decide, by decide, by decide, by decide⟩

/-- Claim C7 (amended): the tag loop dispatches a tag exactly under the
strict guard cursor + 15 < len(data) (here 15 < rest.length on the suffix at
the cursor) together with completeness 15 + dataSize at most rest.length; a
suffix of at most 15 bytes - which includes a complete dataSize-0 tag ending
exactly at the last buffer byte - is never dispatched in the current call
and is left, with the loop state, for the next call. -/
theorem tag_loop_parse_bound (c : Collab) (st : Demuxer) (rest : List Nat)
    (h1 : 15 < rest.length) (h2 : 15 + dsOf rest ≤ rest.length) :
    tagLoop c st rest =
      tagLoop c (handleTag c st rest (dsOf rest)) (rest.drop (15 + dsOf rest)) ∧
    ∀ (st2 : Demuxer) (r2 : List Nat), r2.length ≤ 15 → tagLoop c st2 r2 = (st2, r2) :=
  ⟨tagLoop_step c st rest h1 h2, fun st2 r2 hl => tagLoop_stop_short c st2 r2 hl⟩

/-- Witness for C7: the loop-bound theorem on the 21-byte tag suffix of SV,
whose single tag fills the suffix exactly. -/
theorem tag_loop_parse_bound_witness :
    15 < (SV.drop 13).length ∧
    (tagLoop collabW initDemuxer (SV.drop 13) =
       tagLoop collabW (handleTag collabW initDemuxer (SV.drop 13) (dsOf (SV.drop 13)))
         ((SV.drop 13).drop (15 + dsOf (SV.drop 13))) ∧
     ∀ (st2 : Demuxer) (r2 : List Nat), r2.length ≤ 15 →
       tagLoop collabW st2 r2 = (st2, r2)) :=
  ⟨by decide, tag_loop_parse_bound collabW initDemuxer (SV.drop 13) (by decide) (by decide)⟩

/-- Claim C8: when a demux call parses the FLV header and the flags byte does
not advertise a track (audio bit 2 clear, or video bit 0 clear), the
returned state holds no samples for that track - even if tag parsing
appended some, the finalization resets the track (self-healing). -/
theorem self_healing_presence (c : Collab) (st0 : Demuxer) (data : List Nat) (st' : Demuxer)
    (hh : st0.headerParsed = false) (hr : st0.remainingData = none)
    (hne : data ≠ []) (hp : probe data = true)
    (h : demux c st0 data false true = some st') :
    (byte data 4 % 8 / 4 = 0 → st'.audioTrack.samples = []) ∧
    (byte data 4 % 2 = 0 → st'.videoTrack.samples = []) := by
  rw [demux_first c st0 data hh hr hne hp] at h
  cases h
  obtain ⟨hm, -, -⟩ := tagLoop_pres c (data.drop (readBig32 data 5 + 4)).length
    (data.drop (readBig32 data 5 + 4)) le_rfl
    (applyHeaderFlags (clearTransient st0) data) rfl rfl
  obtain ⟨-, -, e3, e4⟩ := metaOf_fields _ _ hm
  obtain ⟨q1, q2⟩ := finalizeDemux_presEq
    (tagLoop c (applyHeaderFlags (clearTransient st0) data)
      (data.drop (readBig32 data 5 + 4))).1
    (tagLoop c (applyHeaderFlags (clearTransient st0) data)
      (data.drop (readBig32 data 5 + 4))).2
  obtain ⟨-, -, f3, f4⟩ := finalizeDemux_facts
    (tagLoop c (applyHeaderFlags (clearTransient st0) data)
      (data.drop (readBig32 data 5 + 4))).1
    (tagLoop c (applyHeaderFlags (clearTransient st0) data)
      (data.drop (readBig32 data 5 + 4))).2
  constructor
  · intro hz
    apply f3
    rw [q1, e3]
    show decide (byte data 4 % 8 / 4 ≠ 0) = false
    simp [hz]
  · intro hz
    apply f4
    rw [q2, e4]
    show decide (byte data 4 % 2 ≠ 0) = false
    simp [hz]

/-- Witness for C8: the self-healing theorem on S8, whose header advertises
neither track while its G.711 tag appends an audio sample mid-call; the
returned audio track is empty. -/
theorem self_healing_witness :
    probe S8 = true ∧ byte S8 4 % 8 / 4 = 0 ∧
    ((byte S8 4 % 8 / 4 = 0 → stS8.audioTrack.samples = []) ∧
     (byte S8 4 % 2 = 0 → stS8.videoTrack.samples = [])) :=
  ⟨by decide, by decide,
   self_healing_presence collabW initDemuxer S8 stS8 rfl rfl (by decide) (by decide) (by decide)⟩

/-- Claim C9: a video tag body whose codecId (low nibble of body[0]) is
neither 7 (AVC) nor 12 (HEVC) resets the video track, records an
unsupported-codec warning, appends no sample, and parsing does not throw or
abort: the tag loop still steps over any further complete tag. -/
theorem unknown_codec_resets (c : Collab) (st : Demuxer) (body : List Nat) (dts : Nat)
    (h6 : ¬ body.length < 6)
    (hc : byte body 0 % 16 ≠ 7 ∧ byte body 0 % 16 ≠ 12) :
    _parseVideo c st body dts =
      { st with videoTrack := st.videoTrack.reset,
                log := st.log ++ [.unsupportedCodecId (byte body 0 % 16)] } ∧
    (_parseVideo c st body dts).videoTrack.samples = [] ∧
    ∀ (st2 : Demuxer) (rest : List Nat), 15 < rest.length → 15 + dsOf rest ≤ rest.length →
      tagLoop c st2 rest
        = tagLoop c (handleTag c st2 rest (dsOf rest)) (rest.drop (15 + dsOf rest)) := by
  have he : _parseVideo c st body dts =
      { st with videoTrack := st.videoTrack.reset,
                log := st.log ++ [.unsupportedCodecId (byte body 0 % 16)] } := by
    unfold _parseVideo
    rw [if_neg h6, if_pos hc]
  exact ⟨he, by rw [he]; simp [VideoTrack.reset],
    fun st2 rest ha hb => tagLoop_step c st2 rest ha hb⟩

/-- Witness for C9: the unknown-codec theorem at a 6-byte body with
codecId 3. -/
theorem unknown_codec_resets_witness :
    (¬ ([0x13, 0, 0, 0, 0, 0] : List Nat).length < 6) ∧
    (byte [0x13, 0, 0, 0, 0, 0] 0 % 16 ≠ 7 ∧ byte [0x13, 0, 0, 0, 0, 0] 0 % 16 ≠ 12) ∧
    (_parseVideo collabW initDemuxer [0x13, 0, 0, 0, 0, 0] 0 =
      { initDemuxer with videoTrack := initDemuxer.videoTrack.reset,
                         log := initDemuxer.log
                           ++ [.unsupportedCodecId (byte [0x13, 0, 0, 0, 0, 0] 0 % 16)] } ∧
     (_parseVideo collabW initDemuxer [0x13, 0, 0, 0, 0, 0] 0).videoTrack.samples = [] ∧
     ∀ (st2 : Demuxer) (rest : List Nat), 15 < rest.length → 15 + dsOf rest ≤ rest.length →
       tagLoop collabW st2 rest
         = tagLoop collabW (handleTag collabW st2 rest (dsOf rest))
             (rest.drop (15 + dsOf rest))) :=
  ⟨by decide, by decide,
   unknown_codec_resets collabW initDemuxer [0x13, 0, 0, 0, 0, 0] 0 (by decide) (by decide)⟩

/-- Claim C10: _parseAudio on an empty body is a complete no-op: the state -
samples, warnings, every audio-track field, and everything else - is
returned unchanged. -/
theorem parseAudio_empty_noop (c : Collab) (st : Demuxer) (pts : Option Nat) :
    _parseAudio c st [] pts = st := by
  unfold _parseAudio
  simp

end Flv
